import Mathlib

/-!
Verification development for the filter / filter-set core of glogg
(files `filterset.h` / `filterset.cpp` / `filtersdialog.cpp`).

The C++ classes are shallowly embedded:

* `Filter` mirrors class `Filter` (`filterset.h`): a regular-expression
  pattern with case-sensitivity option, two colour names, the `enabled_`
  flag and the origin bookkeeping fields `origin_` / `loaded_offset_`
  (`-1` encodes "none", as in the source).
* A `FilterSet`'s `filterList` is embedded as `List Filter`; the free
  functions below mirror the corresponding member functions.
* The regular-expression engine (`QRegularExpression`) is external to the
  repository; it is embedded as a capability `RegexEngine` carrying the
  documented law that matching with an empty or invalid pattern never
  succeeds.  `Filter::hasMatch` merely delegates to it.
-/

namespace Glogg

/-- Embeds class `Filter` (filterset.h).  `regexp_` is represented by its
pattern string together with the case-insensitivity flag: the pattern
options produced by `getPatternOptions` differ in exactly the
`CaseInsensitiveOption` bit, the other two options being constants. -/
structure Filter where
  pattern : String
  ignoreCase : Bool
  foreColorName : String
  backColorName : String
  enabled : Bool := true
  origin : Int := -1
  loaded_offset : Int := -1
deriving Repr, DecidableEq, Inhabited

/-- The regular-expression capability used by `Filter::hasMatch`.  The
engine itself (QRegularExpression) is outside the repository; per the
specification it is "compile(pattern, case-sensitivity) → matcher;
matcher.matches(text) → bool", and a match against an empty or invalid
pattern never succeeds.  `matchB pattern ignoreCase subject` answers
whether the compiled pattern matches the subject. -/
structure RegexEngine where
  valid : String → Bool
  matchB : String → Bool → String → Bool
  no_match_of_empty_or_invalid :
    ∀ p ic s, p = "" ∨ valid p = false → matchB p ic s = false

/-- Embeds `Filter::hasMatch` (filterset.cpp): delegates to the regex engine on
the filter's own pattern and options.  It is a total function: no error
is ever raised to the caller. -/
def Filter.hasMatch (rx : RegexEngine) (f : Filter) (s : String) : Bool :=
  rx.matchB f.pattern f.ignoreCase s

/-- Embeds `FilterSet::matchLine` (filterset.cpp): scan `filterList` in order;
the first filter whose `hasMatch` succeeds supplies the result colours
(the C++ returns `true` and writes `*foreColor` / `*backColor`; the
embedding returns `some (fore, back)`), otherwise `none` (the C++
returns `false`). -/
def matchLine (rx : RegexEngine) (filterList : List Filter) (line : String) :
    Option (String × String) :=
  match filterList with
  | [] => none
  | f :: rest =>
      if f.hasMatch rx line then some (f.foreColorName, f.backColorName)
      else matchLine rx rest line

/-- Embeds `Filter::operator==` (filterset.h): compares `regexp_` (pattern and
pattern options, hence the pattern string and the case-insensitivity
flag), `foreColorName_` and `backColorName_`; `enabled_`, `origin_` and
`loaded_offset_` are not compared (the source comments them out). -/
def Filter.eqDrift (a b : Filter) : Bool :=
  a.pattern == b.pattern && a.ignoreCase == b.ignoreCase
  && a.foreColorName == b.foreColorName && a.backColorName == b.backColorName

/-- Embeds `QList<Filter>::operator==` as used on `filterList`: element-wise
`Filter::operator==` on lists of equal length. -/
def listEqF : List Filter → List Filter → Bool
  | [], [] => true
  | a :: as, b :: bs => Filter.eqDrift a b && listEqF as bs
  | _, _ => false

/-- Character-list prefix test (used only by the concrete witness
engine below). -/
def charsPre : List Char → List Char → Bool
  | [], _ => true
  | _ :: _, [] => false
  | a :: as, b :: bs => a == b && charsPre as bs

/-- A concrete regex engine used by witnesses: a pattern matches iff it
is non-empty and a prefix of the subject. -/
def prefixMatchEngine : RegexEngine where
  valid p := p != ""
  matchB p _ s := (p != "") && charsPre p.data s.data
  no_match_of_empty_or_invalid := by
    intro p ic s h
    have hp : (p != "") = false := by
      rcases h with h | h
      · subst h; rfl
      · simpa using h
    simp [hp]

/-! ### The editing dialog's bookkeeping (filtersdialog.h / filtersdialog.cpp)

`FiltersDialog` keeps, next to the working `filterSet` and the loaded
`loadedFilterSets`, a parallel structure `loadedFilterRefs :
vector<vector<FilterRef>>` indexed by a source's origin and the offset of
a rule inside that source.  The embedding keeps exactly the data these
operations touch; widget updates (icons, list items, button enabling)
carry no reconciliation state and are omitted. -/

/-- Embeds struct `FiltersDialog::FilterRef` (filtersdialog.h):
`loaded_index` is the rule's offset inside its source's own list,
`filter_index` the position of the corresponding working entry in
`filterSet` (`-1` when inactive), `modified` the drift flag. -/
structure FilterRef where
  loaded_index : Int
  filter_index : Int
  modified : Bool := false
deriving Repr, DecidableEq, Inhabited

/-- Embeds struct `NamedFilterSet` (filterset.h): a filename, the set's
rule list, and the `missing` flag. -/
structure NamedFilterSet where
  filename : String
  set : List Filter := []
  missing : Bool := false
deriving Repr, DecidableEq, Inhabited

/-- The data of `FiltersDialog` the reconciliation operations act on. -/
structure DialogState where
  filterSet : List Filter
  namedFilterSets : List NamedFilterSet
  loadedFilterRefs : List (List FilterRef)
deriving Repr, DecidableEq, Inhabited

/-- In-place update of one list slot (C++ `l[i] = f(l[i])`); out-of-range
indices leave the list unchanged. -/
def listModify : List α → Nat → (α → α) → List α
  | [], _, _ => []
  | a :: as, 0, f => f a :: as
  | a :: as, n + 1, f => a :: listModify as n f

/-- Update the reference at position `j` of `loadedFilterRefs[o]`. -/
def modifyRef (refs : List (List FilterRef)) (o j : Nat) (f : FilterRef → FilterRef) :
    List (List FilterRef) :=
  listModify refs o (fun l => listModify l j f)

/-- The linear search of `FiltersDialog::findLoadedFilterRef`
(filtersdialog.cpp): position of the first reference in
`loadedFilterRefs[origin]` whose `filter_index` equals `index`.  The C++
asserts the reference exists; the embedding returns `none` in that
error case. -/
def findRefPos : List FilterRef → Int → Option Nat
  | [], _ => none
  | r :: rest, index =>
      if r.filter_index == index then some 0
      else (findRefPos rest index).map (· + 1)

def findLoadedFilterRef (refs : List (List FilterRef)) (origin : Nat) (index : Int) :
    Option Nat :=
  findRefPos (refs.getD origin []) index

/-- Embeds `QList::move(from, to)`: remove the element at `from` and re-insert
it at position `to`. -/
def listMove (l : List α) (src dst : Nat) : List α :=
  match l[src]? with
  | none => l
  | some x => (l.eraseIdx src).insertIdx dst x

/-- Embeds `FiltersDialog::moveFilter` (filtersdialog.cpp): record the origins
of the entries at `src` and `dst`, move the working entry, then — having
located both references before overwriting either — re-point the
reference that pointed at `src` to `dst` and the one that pointed at
`dst` to `src`. -/
def moveFilter (st : DialogState) (src dst : Nat) : DialogState :=
  let srcOrigin := (st.filterSet.getD src default).origin
  let dstOrigin := (st.filterSet.getD dst default).origin
  let newList := listMove st.filterSet src dst
  let srcPos : Option Nat :=
    if 0 ≤ srcOrigin then findLoadedFilterRef st.loadedFilterRefs srcOrigin.toNat (Int.ofNat src)
    else none
  let dstPos : Option Nat :=
    if 0 ≤ dstOrigin then findLoadedFilterRef st.loadedFilterRefs dstOrigin.toNat (Int.ofNat dst)
    else none
  let refs1 := match srcPos with
    | some p => modifyRef st.loadedFilterRefs srcOrigin.toNat p
        (fun r => { r with filter_index := Int.ofNat dst })
    | none => st.loadedFilterRefs
  let refs2 := match dstPos with
    | some p => modifyRef refs1 dstOrigin.toNat p
        (fun r => { r with filter_index := Int.ofNat src })
    | none => refs1
  { st with filterSet := newList, loadedFilterRefs := refs2 }

/-- The decrement step of `FiltersDialog::removeFilter`: every reference
whose `filter_index` exceeds the removed index is decremented by one. -/
def removeShift (k : Int) (r : FilterRef) : FilterRef :=
  if k < r.filter_index then { r with filter_index := r.filter_index - 1 } else r

/-- Embeds `FiltersDialog::removeFilter` called with a dummy reference (the
`origin < 0` branch of `on_removeFilterButton_clicked`): the dummy is
not stored in `loadedFilterRefs`, so only the decrement pass and the
list removal are visible. -/
def removeFilterDummy (st : DialogState) (k : Int) : DialogState :=
  { st with
    filterSet := st.filterSet.eraseIdx k.toNat
    loadedFilterRefs := st.loadedFilterRefs.map (fun l => l.map (removeShift k)) }

/-- Embeds `FiltersDialog::removeFilter` (filtersdialog.cpp) on the reference
stored at `loadedFilterRefs[o][j]`: clear its drift flag, decrement
every reference whose index exceeds the removed index, remove the
working entry, and mark the reference inactive (`filter_index = -1`)
rather than deleting it.  (The C++ clears `modified` first and sets
`filter_index = -1` last; the decrement pass leaves the reference itself
unchanged since its index equals the removed index, so the net effect on
it is exactly this final update.) -/
def removeFilter (st : DialogState) (o j : Nat) : DialogState :=
  match (st.loadedFilterRefs.getD o [])[j]? with
  | none => st
  | some r =>
      let k := r.filter_index
      let refs1 := st.loadedFilterRefs.map (fun l => l.map (removeShift k))
      let refs2 := modifyRef refs1 o j (fun r => { r with filter_index := -1, modified := false })
      { st with filterSet := st.filterSet.eraseIdx k.toNat, loadedFilterRefs := refs2 }

/-- The copy performed by both drift-sync loops: `setPattern`,
`setForeColor`, `setBackColor` from `src` into `dst` (case-sensitivity,
`enabled` and the origin fields of `dst` are untouched:
`QRegularExpression::setPattern` keeps the pattern options). -/
def copyPatternColors (src dst : Filter) : Filter :=
  { dst with pattern := src.pattern, foreColorName := src.foreColorName,
             backColorName := src.backColorName }

/-- One-pass application of a per-reference slot update, the shape of
both drift-sync loops: for each reference satisfying `cond`, update the
slot `sel r` of the list with `g r`.  Each C++ loop iteration writes
only its own slot and reads only data the loop never writes, so the
sequential pass is exactly the loop. -/
def applyRefs (cond : FilterRef → Bool) (sel : FilterRef → Nat)
    (g : FilterRef → Filter → Filter) : List FilterRef → List Filter → List Filter
  | [], l => l
  | r :: rest, l =>
      applyRefs cond sel g rest (if cond r then listModify l (sel r) (g r) else l)

/-- Embeds `FiltersDialog::on_saveChangesButton_clicked` (filtersdialog.cpp),
data part, for the selected source `row`: for every active reference,
copy the working entry's pattern and colours into the source's rule at
`loaded_index`, and clear the reference's drift flag.  (The working
`filterSet` is read, never written.) -/
def saveChanges (st : DialogState) (row : Nat) : DialogState :=
  let refs := st.loadedFilterRefs.getD row []
  let newSet := applyRefs (fun r => 0 ≤ r.filter_index) (fun r => r.loaded_index.toNat)
    (fun r old => copyPatternColors (st.filterSet.getD r.filter_index.toNat default) old)
    refs ((st.namedFilterSets.getD row default).set)
  { st with
    namedFilterSets := listModify st.namedFilterSets row (fun ns => { ns with set := newSet })
    loadedFilterRefs := listModify st.loadedFilterRefs row
      (fun l => l.map (fun r => if 0 ≤ r.filter_index then { r with modified := false } else r)) }

/-- Embeds `FiltersDialog::on_undoChangesButton_clicked` (filtersdialog.cpp),
data part, for the selected source `row`: for every reference with the
drift flag set, copy the source rule's pattern and colours back into the
working entry at `filter_index`, and clear the flag.  (The source's rule
list is read, never written.) -/
def undoChanges (st : DialogState) (row : Nat) : DialogState :=
  let refs := st.loadedFilterRefs.getD row []
  let srcSet := (st.namedFilterSets.getD row default).set
  let newFilters := applyRefs (fun r => r.modified) (fun r => r.filter_index.toNat)
    (fun r cur => copyPatternColors (srcSet.getD r.loaded_index.toNat default) cur)
    refs st.filterSet
  { st with
    filterSet := newFilters
    loadedFilterRefs := listModify st.loadedFilterRefs row
      (fun l => l.map (fun r => if r.modified then { r with modified := false } else r)) }

/-! ### Persistence (filterset.cpp, `saveToStorage` / `retrieveFromStorage`)

The QSettings store is embedded by its parsed content: one working-set
entry is a `StoredFilter` (the keys `regexp`, `ignore_case`,
`fore_colour`, `back_colour`, `origin`, `loaded_offset`; an absent
`origin` key reads back as `""` and an absent `loaded_offset` as `-1`,
the defaults the source passes to `QSettings::value`).  The filesystem
and the auto-discovery directory are embedded as an `Env`: whether a
filename exists, the parsed `FilterSet` group of a filter file, and the
files enumerated in the auto directory.  The versioned paths are
modelled (the stores produced by `saveToStorage` always carry the
current version); the legacy (<=0.8.2) migration path is not needed by
any claim. -/

/-- One serialized filter: the key/value group written by
`Filter::saveToStorage` and read by `Filter::retrieveFromStorage`. -/
structure StoredFilter where
  regexp : String
  ignore_case : Bool
  fore_colour : String
  back_colour : String
  origin : String := ""
  loaded_offset : Int := -1
deriving Repr, DecidableEq, Inhabited

/-- The environment of a retrieval: the filesystem (existence and parsed
filter-file content) and the auto-discovery directory's file list. -/
structure Env where
  fileExists : String → Bool
  fileFilters : String → List StoredFilter
  autoFiles : List String

/-- The unconditional first step of `Filter::retrieveFromStorage`:
read pattern, case flag, colours and `loaded_offset`; `origin_` starts
at `-1` (the filter was just default-constructed by
`FilterSet::retrieveFromStorage`). -/
def Filter.fromStored (r : StoredFilter) : Filter :=
  { pattern := r.regexp, ignoreCase := r.ignore_case, foreColorName := r.fore_colour,
    backColorName := r.back_colour, enabled := true, origin := -1,
    loaded_offset := r.loaded_offset }

/-- Result of `Filter::retrieveFromStorage` on a record with an empty
`origin` key and origin argument `-1`: used to model the eager reload of
a filter file (`set->retrieveFromStorage( missing_settings )`), whose
records, as written by `saveToStorage(…, false)`, carry no origin keys. -/
def retrievePlain (r : StoredFilter) : Filter :=
  { pattern := r.regexp, ignoreCase := r.ignore_case, foreColorName := r.fore_colour,
    backColorName := r.back_colour, enabled := true, origin := -1,
    loaded_offset := if 0 ≤ r.loaded_offset then -1 else r.loaded_offset }

/-- The placeholder filters `{ "", false, "black", "black", origin_, i }`
pushed for indices `start ≤ i < stop` while growing a missing source. -/
def placeholderRun (originIdx : Int) (start stop : Nat) : List Filter :=
  (List.range' start (stop - start)).map
    (fun (i : Nat) => { pattern := "", ignoreCase := false, foreColorName := "black",
                        backColorName := "black", enabled := true, origin := originIdx,
                        loaded_offset := (i : Int) })

/-- The `if ( missing )` block of `Filter::retrieveFromStorage`
(filterset.cpp, lines 272–287): when the bound source is missing and an
offset is present, either grow its rule list with placeholders and push
the entry itself as the tail, or overwrite the rule at the offset in
place. -/
def hostInMissing (self : Filter) (lfs : List NamedFilterSet) (k : Nat) (missing : Bool) :
    List NamedFilterSet :=
  if missing then
    if self.loaded_offset = -1 then lfs
    else if ((lfs.getD k default).set.length : Int) ≤ self.loaded_offset then
      listModify lfs k (fun ns =>
        { ns with set := ns.set ++ (placeholderRun self.origin ns.set.length self.loaded_offset.toNat ++ [self]) })
    else
      listModify lfs k (fun ns =>
        { ns with set := listModify ns.set self.loaded_offset.toNat (fun _ => self) })
  else lfs

/-- The tail normalisation of `Filter::retrieveFromStorage` (filterset.cpp,
lines 293–317): a caller-supplied origin overrides a stored one and
rejects an independent offset; an unbound entry cannot keep an offset;
a bound entry's offset must be in range for the bound set (`setIdx`
points to the set the C++ `set` pointer designates), else origin and
offset are dropped. -/
def finalizeOrigin (originArg : Int) (self : Filter) (lfs : List NamedFilterSet)
    (setIdx : Option Nat) : Filter :=
  if 0 ≤ originArg then
    if 0 ≤ self.loaded_offset then { self with origin := -1, loaded_offset := -1 }
    else { self with origin := originArg }
  else if self.origin < 0 then
    if 0 ≤ self.loaded_offset then { self with loaded_offset := -1 } else self
  else
    match setIdx with
    | some k =>
        if self.loaded_offset < 0 ∨ ((lfs.getD k default).set.length : Int) ≤ self.loaded_offset
        then { self with origin := -1, loaded_offset := -1 }
        else self
    | none => { self with origin := -1, loaded_offset := -1 }

/-- The linear search of `Filter::retrieveFromStorage` over
`loadedFilterSet->namedFilterSets`: index of the first set whose
`filename` equals the stored origin string. -/
def findSetIdx : List NamedFilterSet → String → Option Nat
  | [], _ => none
  | ns :: rest, fname =>
      if ns.filename == fname then some 0 else (findSetIdx rest fname).map (· + 1)

/-- Embeds `Filter::retrieveFromStorage` (filterset.cpp, lines 230–318).
Resolve a non-empty `origin` filename against the loaded filter sets: if
found, bind to that set (hosting the entry's data in it when it is
missing); if not found and no caller origin is given, append a new set —
eagerly loaded from disk when the file exists, otherwise a missing
placeholder that hosts the entry's data.  Finally normalise the
origin/offset pair.  Returns the filter together with the (possibly
modified) loaded sets. -/
def Filter.retrieveFromStorage (env : Env) (r : StoredFilter) (originArg : Int)
    (lfs : List NamedFilterSet) : Filter × List NamedFilterSet :=
  let self := Filter.fromStored r
  if r.origin = "" then
    (finalizeOrigin originArg self lfs none, lfs)
  else
    match findSetIdx lfs r.origin with
    | some k =>
        let self := { self with origin := (k : Int) }
        let lfs2 := hostInMissing self lfs k (lfs.getD k default).missing
        (finalizeOrigin originArg self lfs2 (some k), lfs2)
    | none =>
        if originArg < 0 then
          let k := lfs.length
          let self := { self with origin := (k : Int) }
          if env.fileExists r.origin then
            let lfs1 := lfs ++ [⟨r.origin, (env.fileFilters r.origin).map retrievePlain, false⟩]
            (finalizeOrigin originArg self lfs1 (some k), lfs1)
          else
            let lfs1 := lfs ++ [⟨r.origin, [], true⟩]
            let lfs2 := hostInMissing self lfs1 k true
            (finalizeOrigin originArg self lfs2 (some k), lfs2)
        else
          (finalizeOrigin originArg self lfs none, lfs)

/-- Embeds `FilterSet::retrieveFromStorage` (versioned path): retrieve
each serialized filter in order, threading the loaded-filter-sets state
(each entry's retrieval may resolve origins against, and modify, that
state). -/
def FilterSet.retrieveList (env : Env) :
    List StoredFilter → Int → List NamedFilterSet → List Filter × List NamedFilterSet
  | [], _, lfs => ([], lfs)
  | r :: rest, originArg, lfs =>
      let p := Filter.retrieveFromStorage env r originArg lfs
      let q := FilterSet.retrieveList env rest originArg p.2
      (p.1 :: q.1, q.2)

/-- Embeds `FilterSet::retrieveFromStorage` when the set being filled is
itself `namedFilterSets[k]` (registry and auto-directory loading): each
retrieved filter is appended to entry `k`'s rule list.  (The C++ appends
a default-constructed filter and retrieves into it in place; computing
the filter first is observationally equal except for self-referential
stores no claim reaches.) -/
def retrieveSetInto (env : Env) :
    List StoredFilter → Int → List NamedFilterSet → Nat → List NamedFilterSet
  | [], _, lfs, _ => lfs
  | r :: rest, originArg, lfs, k =>
      let p := Filter.retrieveFromStorage env r originArg lfs
      retrieveSetInto env rest originArg
        (listModify p.2 k (fun ns => { ns with set := ns.set ++ [p.1] })) k

/-- The explicit-entries loop of `LoadedFilterSets::retrieveFromStorage`
(filterset.cpp, lines 417–444): for each serialized set, append a
`NamedFilterSet`, retrieve its persisted snapshot, and when the backing
file exists re-read it from disk and — if the fresh content differs from
the snapshot under `Filter::operator==` — ask whether to reload (keeping
the snapshot on "no"); when the file does not exist, mark the set
missing.  (The re-save on reload, `sync`, only rewrites storage and does
not affect the in-memory result.) -/
def LoadedFilterSets.retrieveAux (env : Env) (ask : String → Bool) :
    List (String × List StoredFilter) → List NamedFilterSet → List NamedFilterSet
  | [], lfs => lfs
  | (fname, snap) :: rest, lfs =>
      let k := lfs.length
      let lfs1 := lfs ++ [⟨fname, [], false⟩]
      let lfs2 := retrieveSetInto env snap (Int.ofNat k) lfs1 k
      let lfs3 :=
        if env.fileExists fname then
          let p := FilterSet.retrieveList env (env.fileFilters fname) (Int.ofNat k) lfs2
          if listEqF p.1 ((p.2.getD k default).set) then p.2
          else if ask fname then listModify p.2 k (fun ns => { ns with set := p.1 })
          else p.2
        else listModify lfs2 k (fun ns => { ns with missing := true })
      LoadedFilterSets.retrieveAux env ask rest lfs3

/-- The auto-directory loop of `LoadedFilterSets::retrieveFromStorage`
(filterset.cpp, lines 455–463): append a `NamedFilterSet` for each file
of the auto directory and load it from disk. -/
def autoAppend (env : Env) : List String → List NamedFilterSet → List NamedFilterSet
  | [], lfs => lfs
  | f :: rest, lfs =>
      let k := lfs.length
      let lfs1 := lfs ++ [⟨f, [], false⟩]
      autoAppend env rest (retrieveSetInto env (env.fileFilters f) (Int.ofNat k) lfs1 k)

/-- Embeds `LoadedFilterSets::retrieveFromStorage` (filterset.cpp, lines
409–464): clear, load the explicit serialized sets, then append the
auto-directory sets. -/
def LoadedFilterSets.retrieve (env : Env) (ask : String → Bool)
    (entries : List (String × List StoredFilter)) : List NamedFilterSet :=
  autoAppend env env.autoFiles (LoadedFilterSets.retrieveAux env ask entries [])

/-- Embeds `Filter::saveToStorage` with `origin = true`: the origin is
persisted as the bound set's filename (empty when unbound), alongside
the offset. -/
def Filter.saveRecord (lfs : List NamedFilterSet) (f : Filter) : StoredFilter :=
  { regexp := f.pattern, ignore_case := f.ignoreCase, fore_colour := f.foreColorName,
    back_colour := f.backColorName,
    origin := if f.origin ≠ -1 then (lfs.getD f.origin.toNat default).filename else "",
    loaded_offset := f.loaded_offset }

/-- Embeds `Filter::saveToStorage` with `origin = false`: no origin or
offset keys are written, so they read back as the defaults `""` / `-1`. -/
def Filter.saveRecordNoOrigin (f : Filter) : StoredFilter :=
  { regexp := f.pattern, ignore_case := f.ignoreCase, fore_colour := f.foreColorName,
    back_colour := f.backColorName, origin := "", loaded_offset := -1 }

/-- Embeds `FilterSet::saveToStorage` for the working set (origins
persisted, resolved through the loaded sets current at save time). -/
def FilterSet.saveList (lfs : List NamedFilterSet) (ws : List Filter) : List StoredFilter :=
  ws.map (Filter.saveRecord lfs)

/-- Embeds `LoadedFilterSets::saveToStorage` (filterset.cpp, lines
375–407): write the explicit sets, in order, skipping any whose path is
inside the auto directory and matches its name filter (abstracted by the
predicate `isAuto`); each set's filters are written without origin
keys. -/
def LoadedFilterSets.save (isAuto : String → Bool) (lfs : List NamedFilterSet) :
    List (String × List StoredFilter) :=
  (lfs.filter (fun ns => !isAuto ns.filename)).map
    (fun ns => (ns.filename, ns.set.map Filter.saveRecordNoOrigin))

/-- A save of both persistent objects followed by a retrieval of both
from the same storage, in the order the application loads them (the
registry first, then the working set against the freshly loaded
registry). -/
def roundtrip (env : Env) (ask : String → Bool) (isAuto : String → Bool)
    (ws : List Filter) (lfs : List NamedFilterSet) : List Filter × List NamedFilterSet :=
  FilterSet.retrieveList env (FilterSet.saveList lfs ws) (-1)
    (LoadedFilterSets.retrieve env ask (LoadedFilterSets.save isAuto lfs))

/-! ### Derived characterisations used to state the retrieval lemmas -/

/-- Derived: the value `Filter::retrieveFromStorage` produces for a
record with no origin keys under a non-negative caller origin (proved as
a lemma below), i.e. the record's data bound to the enclosing set. -/
def reloadedFilter (originArg : Int) (r : StoredFilter) : Filter :=
  { Filter.fromStored r with origin := originArg }

/-- Map with the element's position, starting at `n`. -/
def mapIdxFrom (n : Nat) (f : Nat → α → β) : List α → List β
  | [] => []
  | a :: as => f n a :: mapIdxFrom (n + 1) f as

/-- Derived: the `NamedFilterSet` one explicit serialized entry yields in
`LoadedFilterSets::retrieveFromStorage` when all its records (and the
backing file's, if read) carry no origin keys (proved as a lemma
below): snapshot reloaded, then — if the file exists — possibly replaced
by the freshly read content after the reload question; if the file does
not exist, marked missing with the snapshot kept. -/
def entryReload (env : Env) (ask : String → Bool) (k : Nat)
    (e : String × List StoredFilter) : NamedFilterSet :=
  if env.fileExists e.1 then
    if listEqF ((env.fileFilters e.1).map (reloadedFilter (Int.ofNat k)))
        (e.2.map (reloadedFilter (Int.ofNat k))) then
      ⟨e.1, e.2.map (reloadedFilter (Int.ofNat k)), false⟩
    else if ask e.1 then
      ⟨e.1, (env.fileFilters e.1).map (reloadedFilter (Int.ofNat k)), false⟩
    else ⟨e.1, e.2.map (reloadedFilter (Int.ofNat k)), false⟩
  else ⟨e.1, e.2.map (reloadedFilter (Int.ofNat k)), true⟩

/-- The invariant relating the registry a working set was saved against
to the registry state while the working set is re-retrieved: same
length, and per entry the same filename, the same missing flag and — for
present entries — the same rule count (missing entries may have been
grown by earlier working entries). -/
def RegRel (lfs cur : List NamedFilterSet) : Prop :=
  cur.length = lfs.length ∧
  ∀ i, i < lfs.length →
    (cur.getD i default).filename = (lfs.getD i default).filename ∧
    (cur.getD i default).missing = (lfs.getD i default).missing ∧
    ((lfs.getD i default).missing = false →
      (cur.getD i default).set.length = (lfs.getD i default).set.length)

theorem matchLine_nil (rx : RegexEngine) (line : String) :
    matchLine rx [] line = none := rfl

theorem matchLine_none_of_no_match (rx : RegexEngine) (line : String) :
    ∀ fs : List Filter, (∀ f ∈ fs, f.hasMatch rx line = false) →
      matchLine rx fs line = none := by
  intro fs
  induction fs with
  | nil => intro _; rfl
  | cons f rest ih =>
      intro h
      have hf : f.hasMatch rx line = false := h f (by simp)
      have hrest : ∀ g ∈ rest, g.hasMatch rx line = false := by
        intro g hg; exact h g (by simp [hg])
      simp [matchLine, hf, ih hrest]

theorem matchLine_first_match (rx : RegexEngine) (line : String) :
    ∀ (l1 : List Filter) (f : Filter) (l2 : List Filter),
      (∀ g ∈ l1, g.hasMatch rx line = false) →
      f.hasMatch rx line = true →
      matchLine rx (l1 ++ f :: l2) line = some (f.foreColorName, f.backColorName) := by
  intro l1
  induction l1 with
  | nil =>
      intro f l2 _ hf
      simp [matchLine, hf]
  | cons g rest ih =>
      intro f l2 h hf
      have hg : g.hasMatch rx line = false := h g (by simp)
      have hrest : ∀ x ∈ rest, x.hasMatch rx line = false := by
        intro x hx; exact h x (by simp [hx])
      simp [matchLine, hg, ih f l2 hrest hf]

/-- C1.  `FilterSet::matchLine` implements first-match-wins: (a) when no
filter in the list matches the line (in particular when the list is
empty) it reports no style; (b) when the list splits as `l1 ++ f :: l2`
with no filter of `l1` matching and `f` matching, the result is exactly
`f`'s foreground/background colours — independently of `l2`, so the
filters after the first matching one are never consulted. -/
theorem c1_matchLine_first_match_wins (rx : RegexEngine) (line : String) :
    (∀ fs : List Filter, (∀ f ∈ fs, f.hasMatch rx line = false) →
        matchLine rx fs line = none) ∧
    (∀ (l1 : List Filter) (f : Filter) (l2 l2' : List Filter),
        (∀ g ∈ l1, g.hasMatch rx line = false) →
        f.hasMatch rx line = true →
        matchLine rx (l1 ++ f :: l2) line = some (f.foreColorName, f.backColorName) ∧
        matchLine rx (l1 ++ f :: l2) line = matchLine rx (l1 ++ f :: l2') line) := by
  refine ⟨matchLine_none_of_no_match rx line, ?_⟩
  intro l1 f l2 l2' h hf
  have h2 := matchLine_first_match rx line l1 f l2 h hf
  have h2' := matchLine_first_match rx line l1 f l2' h hf
  exact ⟨h2, h2.trans h2'.symm⟩

/-- Witness for C1 at concrete inputs: with the prefix engine and the
line `"WARN: disk full"`, the list `[("ERROR" rule), ("WARN" rule),
("WA" rule)]` yields the `"WARN"` rule's colours even though the later
`"WA"` rule also matches, and a no-match line yields `none`. -/
theorem c1_matchLine_first_match_wins_witness :
    matchLine prefixMatchEngine
      [{ pattern := "ERROR", ignoreCase := false, foreColorName := "black", backColorName := "red" },
       { pattern := "WARN", ignoreCase := false, foreColorName := "black", backColorName := "yellow" },
       { pattern := "WA", ignoreCase := false, foreColorName := "white", backColorName := "blue" }]
      "WARN: disk full" = some ("black", "yellow") ∧
    matchLine prefixMatchEngine
      [{ pattern := "ERROR", ignoreCase := false, foreColorName := "black", backColorName := "red" }]
      "all quiet" = none := by
  constructor
  · exact ((c1_matchLine_first_match_wins prefixMatchEngine "WARN: disk full").2
      [{ pattern := "ERROR", ignoreCase := false, foreColorName := "black", backColorName := "red" }]
      { pattern := "WARN", ignoreCase := false, foreColorName := "black", backColorName := "yellow" }
      [{ pattern := "WA", ignoreCase := false, foreColorName := "white", backColorName := "blue" }]
      []
      (by decide) (by decide)).1
  · exact (c1_matchLine_first_match_wins prefixMatchEngine "all quiet").1
      [{ pattern := "ERROR", ignoreCase := false, foreColorName := "black", backColorName := "red" }]
      (by decide)

/-- C8.  `Filter::hasMatch` reports no match whenever the filter's
pattern is empty or invalid for the engine; being a total function of
its inputs, it never raises an error to the caller. -/
theorem c8_hasMatch_false_on_empty_or_invalid (rx : RegexEngine) (f : Filter) (s : String)
    (h : f.pattern = "" ∨ rx.valid f.pattern = false) :
    f.hasMatch rx s = false :=
  rx.no_match_of_empty_or_invalid f.pattern f.ignoreCase s h

/-- Witness for C8: a filter with the empty pattern never matches under
the concrete prefix engine. -/
theorem c8_hasMatch_false_on_empty_or_invalid_witness :
    Filter.hasMatch prefixMatchEngine
      { pattern := "", ignoreCase := false, foreColorName := "black", backColorName := "white" }
      "some line" = false :=
  c8_hasMatch_false_on_empty_or_invalid prefixMatchEngine
    { pattern := "", ignoreCase := false, foreColorName := "black", backColorName := "white" }
    "some line" (Or.inl rfl)

/-- Counterexample for C9 as stated: two filters that differ only in
case-sensitivity are NOT equal under `Filter::operator==`, because the
operator compares `regexp_`, and `QRegularExpression` equality includes
the pattern options (which differ in `CaseInsensitiveOption`). -/
theorem c9_eqDrift_counterexample :
    Filter.eqDrift
      { pattern := "abc", ignoreCase := false, foreColorName := "black", backColorName := "white" }
      { pattern := "abc", ignoreCase := true, foreColorName := "black", backColorName := "white" }
      = false := by decide

/-- C9 (amended).  `Filter::operator==`, as used for drift detection,
compares exactly the pattern, the case-sensitivity option, the
foreground colour and the background colour: two filters agreeing on
those four are equal even if they differ in `enabled`, `origin` or
`loaded_offset`; conversely equal filters agree on all four, so filters
differing in case-sensitivity are not equal. -/
theorem c9_eqDrift_fields (a b : Filter)
    (hp : a.pattern = b.pattern) (hc : a.ignoreCase = b.ignoreCase)
    (hf : a.foreColorName = b.foreColorName) (hb : a.backColorName = b.backColorName) :
    Filter.eqDrift a b = true ∧
      (∀ x y : Filter, Filter.eqDrift x y = true →
        x.pattern = y.pattern ∧ x.ignoreCase = y.ignoreCase ∧
        x.foreColorName = y.foreColorName ∧ x.backColorName = y.backColorName) := by
  constructor
  · simp [Filter.eqDrift, hp, hc, hf, hb]
  · intro x y hxy
    simp only [Filter.eqDrift, Bool.and_eq_true, beq_iff_eq] at hxy
    exact ⟨hxy.1.1.1, hxy.1.1.2, hxy.1.2, hxy.2⟩

/-- Witness for the amended C9: filters differing in `enabled`, `origin`
and `loaded_offset` only are equal under `Filter::operator==`. -/
theorem c9_eqDrift_fields_witness :
    Filter.eqDrift
      { pattern := "abc", ignoreCase := true, foreColorName := "red", backColorName := "white",
        enabled := true, origin := -1, loaded_offset := -1 }
      { pattern := "abc", ignoreCase := true, foreColorName := "red", backColorName := "white",
        enabled := false, origin := 3, loaded_offset := 7 }
      = true :=
  (c9_eqDrift_fields
    { pattern := "abc", ignoreCase := true, foreColorName := "red", backColorName := "white",
      enabled := true, origin := -1, loaded_offset := -1 }
    { pattern := "abc", ignoreCase := true, foreColorName := "red", backColorName := "white",
      enabled := false, origin := 3, loaded_offset := 7 }
    rfl rfl rfl rfl).1

/-! ### Helper lemmas on the list primitives -/

theorem listModify_length (l : List α) (i : Nat) (f : α → α) :
    (listModify l i f).length = l.length := by
  induction l generalizing i with
  | nil => rfl
  | cons a as ih =>
      cases i with
      | zero => rfl
      | succ n => simpa [listModify] using ih n

theorem listModify_getD (l : List α) (i m : Nat) (f : α → α) (d : α) :
    (listModify l i f).getD m d =
      if i = m ∧ m < l.length then f (l.getD m d) else l.getD m d := by
  induction l generalizing i m with
  | nil => simp [listModify]
  | cons a as ih =>
      cases i with
      | zero =>
          cases m with
          | zero => simp [listModify]
          | succ mm => simp [listModify]
      | succ n =>
          cases m with
          | zero => simp [listModify]
          | succ mm =>
              simp only [listModify, List.getD_cons_succ, ih n mm, List.length_cons]
              by_cases h : n = mm ∧ mm < as.length
              · rw [if_pos h, if_pos ⟨by omega, by omega⟩]
              · rw [if_neg h, if_neg (by omega)]

theorem map_getD (l : List α) (f : α → β) (i : Nat) (d : α) (d' : β) (h : i < l.length) :
    (l.map f).getD i d' = f (l.getD i d) := by
  induction l generalizing i with
  | nil => simp at h
  | cons a as ih =>
      cases i with
      | zero => simp
      | succ n => simpa using ih n (by simpa using h)

theorem getD_lt_length_of_ne_default (l : List (List β)) (o : Nat)
    (h : l.getD o [] ≠ []) : o < l.length := by
  by_contra hc
  exact h (List.getD_eq_default _ _ (by omega))

theorem modifyRef_getD (refs : List (List FilterRef)) (o j o' j' : Nat)
    (f : FilterRef → FilterRef) (d : FilterRef) :
    ((modifyRef refs o j f).getD o' []).getD j' d =
      if o = o' ∧ j = j' ∧ o' < refs.length ∧ j' < (refs.getD o' []).length
      then f ((refs.getD o' []).getD j' d) else (refs.getD o' []).getD j' d := by
  unfold modifyRef
  rw [listModify_getD]
  by_cases ho : o = o' ∧ o' < refs.length
  · rw [if_pos ho, listModify_getD]
    by_cases hj : j = j' ∧ j' < (refs.getD o' []).length
    · rw [if_pos hj, if_pos ⟨ho.1, hj.1, ho.2, hj.2⟩]
    · rw [if_neg hj, if_neg (by tauto)]
  · rw [if_neg ho, if_neg (by tauto)]

theorem modifyRef_length (refs : List (List FilterRef)) (o j : Nat) (f : FilterRef → FilterRef) :
    (modifyRef refs o j f).length = refs.length :=
  listModify_length _ _ _

theorem modifyRef_inner_length (refs : List (List FilterRef)) (o j o' : Nat)
    (f : FilterRef → FilterRef) :
    ((modifyRef refs o j f).getD o' []).length = (refs.getD o' []).length := by
  unfold modifyRef
  rw [listModify_getD]
  by_cases h : o = o' ∧ o' < refs.length
  · rw [if_pos h, listModify_length]
  · rw [if_neg h]

theorem findRefPos_some_spec (l : List FilterRef) (index : Int) :
    ∀ p : Nat, findRefPos l index = some p →
      p < l.length ∧ (l.getD p default).filter_index = index := by
  induction l with
  | nil => intro p h; simp [findRefPos] at h
  | cons r rest ih =>
      intro p h
      unfold findRefPos at h
      by_cases hr : r.filter_index == index
      · rw [if_pos hr] at h
        cases h
        exact ⟨by simp, by simpa using hr⟩
      · rw [if_neg hr] at h
        rcases Option.map_eq_some'.mp h with ⟨p', hp', rfl⟩
        rcases ih p' hp' with ⟨h1, h2⟩
        exact ⟨by simpa using h1, by simpa using h2⟩

/-! ### C2: removing a working entry -/

/-- C2.  Removing the working entry referenced by `loadedFilterRefs[o][j]`
(whose `filter_index` is `k`): the removed entry's own reference becomes
inactive (`filter_index = -1`) but is not deleted (all reference-list
lengths are preserved) and keeps its `loaded_index`; every other
reference keeps its `(source, sourceOffset)` identity (its position and
its `loaded_index`) and has its stored working-set index decremented by
exactly one when it exceeds `k`, and left unchanged when it is at most
`k` (in particular inactive references, at `-1`, are unchanged). -/
theorem c2_removeFilter_rank_shift (st : DialogState) (o j : Nat)
    (ho : o < st.loadedFilterRefs.length)
    (hj : j < (st.loadedFilterRefs.getD o []).length)
    (hactive : 0 ≤ ((st.loadedFilterRefs.getD o []).getD j default).filter_index) :
    (((removeFilter st o j).loadedFilterRefs.getD o []).getD j default).filter_index = -1 ∧
    (((removeFilter st o j).loadedFilterRefs.getD o []).getD j default).loaded_index
      = ((st.loadedFilterRefs.getD o []).getD j default).loaded_index ∧
    (removeFilter st o j).loadedFilterRefs.length = st.loadedFilterRefs.length ∧
    (∀ o', ((removeFilter st o j).loadedFilterRefs.getD o' []).length
      = (st.loadedFilterRefs.getD o' []).length) ∧
    (∀ o' j', o' < st.loadedFilterRefs.length →
      j' < (st.loadedFilterRefs.getD o' []).length → ¬(o' = o ∧ j' = j) →
      (((removeFilter st o j).loadedFilterRefs.getD o' []).getD j' default).loaded_index
        = ((st.loadedFilterRefs.getD o' []).getD j' default).loaded_index ∧
      (((removeFilter st o j).loadedFilterRefs.getD o' []).getD j' default).filter_index
        = (if ((st.loadedFilterRefs.getD o []).getD j default).filter_index
              < ((st.loadedFilterRefs.getD o' []).getD j' default).filter_index
           then ((st.loadedFilterRefs.getD o' []).getD j' default).filter_index - 1
           else ((st.loadedFilterRefs.getD o' []).getD j' default).filter_index)) := by
  have hsome : (st.loadedFilterRefs.getD o [])[j]? =
      some ((st.loadedFilterRefs.getD o []).getD j default) := by
    rw [List.getD_eq_getElem _ _ hj]
    exact List.getElem?_eq_getElem hj
  have hmapgetD : ∀ o', o' < st.loadedFilterRefs.length →
      ((st.loadedFilterRefs.map (fun l => l.map
          (removeShift ((st.loadedFilterRefs.getD o []).getD j default).filter_index))).getD o' [])
        = (st.loadedFilterRefs.getD o' []).map
            (removeShift ((st.loadedFilterRefs.getD o []).getD j default).filter_index) := by
    intro o' ho'
    exact map_getD _ _ _ [] [] ho'
  have hself : ∀ o' j', o' < st.loadedFilterRefs.length →
      j' < (st.loadedFilterRefs.getD o' []).length →
      (((st.loadedFilterRefs.map (fun l => l.map
          (removeShift ((st.loadedFilterRefs.getD o []).getD j default).filter_index))).getD o' []).getD j' default)
        = removeShift ((st.loadedFilterRefs.getD o []).getD j default).filter_index
            ((st.loadedFilterRefs.getD o' []).getD j' default) := by
    intro o' j' ho' hj'
    rw [hmapgetD o' ho']
    exact map_getD _ _ _ default default hj'
  simp only [removeFilter, hsome, ← List.getD_eq_getElem?_getD]
  refine ⟨?_, ?_, ?_, ?_, ?_⟩
  · rw [modifyRef_getD]
    rw [if_pos ⟨rfl, rfl, by simpa [List.length_map] using ho, by
      rw [hmapgetD o ho]; simpa [List.length_map] using hj⟩]
  · rw [modifyRef_getD]
    rw [if_pos ⟨rfl, rfl, by simpa [List.length_map] using ho, by
      rw [hmapgetD o ho]; simpa [List.length_map] using hj⟩]
    rw [hself o j ho hj]
    simp [removeShift]
  · simp [modifyRef_length, List.length_map]
  · intro o'
    rw [modifyRef_inner_length]
    by_cases ho' : o' < st.loadedFilterRefs.length
    · rw [hmapgetD o' ho', List.length_map]
    · rw [List.getD_eq_default _ _ (by simpa [List.length_map] using Nat.le_of_not_lt ho'),
        List.getD_eq_default _ _ (Nat.le_of_not_lt ho')]
  · intro o' j' ho' hj' hne
    rw [modifyRef_getD, if_neg (by tauto), hself o' j' ho' hj']
    constructor
    · simp only [removeShift]
      split <;> rfl
    · simp only [removeShift]
      split <;> rfl

/-- Witness for C2 on a concrete state: removing the entry referenced by
`loadedFilterRefs[0][0]` (working index 0) decrements the reference at
`[0][1]` (working index 2 → 1) and the one at `[1][0]` (1 → 0),
inactivates the removed reference and keeps all `loaded_index` values. -/
theorem c2_removeFilter_rank_shift_witness :
    (((removeFilter
        { filterSet := [
            { pattern := "a", ignoreCase := false, foreColorName := "black", backColorName := "white", origin := 0, loaded_offset := 0 },
            { pattern := "b", ignoreCase := false, foreColorName := "black", backColorName := "white", origin := 1, loaded_offset := 0 },
            { pattern := "c", ignoreCase := false, foreColorName := "black", backColorName := "white", origin := 0, loaded_offset := 1 }]
          namedFilterSets := [⟨"s0", [], false⟩, ⟨"s1", [], false⟩]
          loadedFilterRefs := [[⟨0, 0, false⟩, ⟨1, 2, false⟩], [⟨0, 1, false⟩]] }
        0 0).loadedFilterRefs.getD 0 []).getD 0 default).filter_index = -1 ∧
    (((removeFilter
        { filterSet := [
            { pattern := "a", ignoreCase := false, foreColorName := "black", backColorName := "white", origin := 0, loaded_offset := 0 },
            { pattern := "b", ignoreCase := false, foreColorName := "black", backColorName := "white", origin := 1, loaded_offset := 0 },
            { pattern := "c", ignoreCase := false, foreColorName := "black", backColorName := "white", origin := 0, loaded_offset := 1 }]
          namedFilterSets := [⟨"s0", [], false⟩, ⟨"s1", [], false⟩]
          loadedFilterRefs := [[⟨0, 0, false⟩, ⟨1, 2, false⟩], [⟨0, 1, false⟩]] }
        0 0).loadedFilterRefs.getD 0 []).getD 1 default).filter_index = 1 := by
  constructor
  · exact (c2_removeFilter_rank_shift
      { filterSet := [
          { pattern := "a", ignoreCase := false, foreColorName := "black", backColorName := "white", origin := 0, loaded_offset := 0 },
          { pattern := "b", ignoreCase := false, foreColorName := "black", backColorName := "white", origin := 1, loaded_offset := 0 },
          { pattern := "c", ignoreCase := false, foreColorName := "black", backColorName := "white", origin := 0, loaded_offset := 1 }]
        namedFilterSets := [⟨"s0", [], false⟩, ⟨"s1", [], false⟩]
        loadedFilterRefs := [[⟨0, 0, false⟩, ⟨1, 2, false⟩], [⟨0, 1, false⟩]] }
      0 0 (by decide) (by decide) (by decide)).1
  · have h := (c2_removeFilter_rank_shift
      { filterSet := [
          { pattern := "a", ignoreCase := false, foreColorName := "black", backColorName := "white", origin := 0, loaded_offset := 0 },
          { pattern := "b", ignoreCase := false, foreColorName := "black", backColorName := "white", origin := 1, loaded_offset := 0 },
          { pattern := "c", ignoreCase := false, foreColorName := "black", backColorName := "white", origin := 0, loaded_offset := 1 }]
        namedFilterSets := [⟨"s0", [], false⟩, ⟨"s1", [], false⟩]
        loadedFilterRefs := [[⟨0, 0, false⟩, ⟨1, 2, false⟩], [⟨0, 1, false⟩]] }
      0 0 (by decide) (by decide) (by decide)).2.2.2.2 0 1 (by decide) (by decide) (by decide)
    rw [h.2]
    decide

/-! ### C3: moving a working entry -/

theorem listMove_getD_dst (l : List α) (src dst : Nat) (d : α)
    (hs : src < l.length) (hd : dst < l.length) :
    (listMove l src dst).getD dst d = l.getD src d := by
  unfold listMove
  rw [List.getElem?_eq_getElem hs]
  have hlen : (l.eraseIdx src).length = l.length - 1 := by
    rw [List.length_eraseIdx]
    simp [hs]
  have hdle : dst ≤ (l.eraseIdx src).length := by omega
  have hlen2 : ((l.eraseIdx src).insertIdx dst l[src]).length = l.length := by
    rw [List.length_insertIdx _ _ hdle, hlen]; omega
  rw [List.getD_eq_getElem _ _ (by omega : dst < ((l.eraseIdx src).insertIdx dst l[src]).length),
    List.getD_eq_getElem _ _ hs]
  exact List.getElem_insertIdx_self _ _ _ hdle

/-- C3.  `FiltersDialog::moveFilter(src, dst)` locates both origin
references before overwriting either, then re-points the reference that
pointed at working index `src` to `dst` and the reference that pointed
at `dst` to `src` (a true swap: because both are located first, the two
updates hit the two distinct original references).  Consequently the
entry now at index `dst` is exactly the entry previously at `src`, so it
still reports the same `(origin, loaded_offset)` binding. -/
theorem c3_moveFilter_swaps_refs (st : DialogState) (src dst p q : Nat)
    (hs : src < st.filterSet.length) (hd : dst < st.filterSet.length) (hne : src ≠ dst)
    (hso : 0 ≤ (st.filterSet.getD src default).origin)
    (hdo : 0 ≤ (st.filterSet.getD dst default).origin)
    (hp : findLoadedFilterRef st.loadedFilterRefs
            (st.filterSet.getD src default).origin.toNat (Int.ofNat src) = some p)
    (hq : findLoadedFilterRef st.loadedFilterRefs
            (st.filterSet.getD dst default).origin.toNat (Int.ofNat dst) = some q) :
    ((((moveFilter st src dst).loadedFilterRefs.getD
        (st.filterSet.getD src default).origin.toNat []).getD p default).filter_index
      = Int.ofNat dst) ∧
    ((((moveFilter st src dst).loadedFilterRefs.getD
        (st.filterSet.getD dst default).origin.toNat []).getD q default).filter_index
      = Int.ofNat src) ∧
    ((moveFilter st src dst).filterSet.getD dst default = st.filterSet.getD src default) ∧
    ((moveFilter st src dst).filterSet.getD dst default).origin
      = (st.filterSet.getD src default).origin ∧
    ((moveFilter st src dst).filterSet.getD dst default).loaded_offset
      = (st.filterSet.getD src default).loaded_offset := by
  have hpspec := findRefPos_some_spec _ _ _ hp
  have hqspec := findRefPos_some_spec _ _ _ hq
  have hpo : (st.filterSet.getD src default).origin.toNat < st.loadedFilterRefs.length := by
    apply getD_lt_length_of_ne_default
    intro hnil
    rw [hnil] at hpspec
    simp at hpspec
  have hqo : (st.filterSet.getD dst default).origin.toNat < st.loadedFilterRefs.length := by
    apply getD_lt_length_of_ne_default
    intro hnil
    rw [hnil] at hqspec
    simp at hqspec
  have hslotne : ¬((st.filterSet.getD dst default).origin.toNat
        = (st.filterSet.getD src default).origin.toNat ∧ q = p) := by
    rintro ⟨h1, h2⟩
    apply hne
    have := hpspec.2
    rw [← h1, ← h2, hqspec.2] at this
    exact (Int.ofNat.inj this).symm
  have hmove : (moveFilter st src dst).filterSet.getD dst default
      = st.filterSet.getD src default := by
    simp only [moveFilter, hso, hdo, if_pos, hp, hq]
    exact listMove_getD_dst _ _ _ _ hs hd
  refine ⟨?_, ?_, hmove, by rw [hmove], by rw [hmove]⟩
  · simp only [moveFilter, hso, hdo, if_pos, hp, hq]
    rw [modifyRef_getD, if_neg (by
      rw [modifyRef_length, modifyRef_inner_length]
      tauto)]
    rw [modifyRef_getD, if_pos ⟨rfl, rfl, hpo, hpspec.1⟩]
  · simp only [moveFilter, hso, hdo, if_pos, hp, hq]
    rw [modifyRef_getD, if_pos ⟨rfl, rfl, by rw [modifyRef_length]; exact hqo, by
      rw [modifyRef_inner_length]; exact hqspec.1⟩]

/-- Witness for C3 on a concrete state: moving working entry 0 to
position 1 swaps the two origin references and the entry that lands at
index 1 keeps its `(origin, loaded_offset)` binding. -/
theorem c3_moveFilter_swaps_refs_witness :
    ((((moveFilter
        { filterSet := [
            { pattern := "a", ignoreCase := false, foreColorName := "black", backColorName := "white", origin := 0, loaded_offset := 0 },
            { pattern := "b", ignoreCase := false, foreColorName := "black", backColorName := "white", origin := 1, loaded_offset := 0 }]
          namedFilterSets := [⟨"s0", [], false⟩, ⟨"s1", [], false⟩]
          loadedFilterRefs := [[⟨0, 0, false⟩], [⟨0, 1, false⟩]] }
        0 1).loadedFilterRefs.getD 0 []).getD 0 default).filter_index = 1) ∧
    ((((moveFilter
        { filterSet := [
            { pattern := "a", ignoreCase := false, foreColorName := "black", backColorName := "white", origin := 0, loaded_offset := 0 },
            { pattern := "b", ignoreCase := false, foreColorName := "black", backColorName := "white", origin := 1, loaded_offset := 0 }]
          namedFilterSets := [⟨"s0", [], false⟩, ⟨"s1", [], false⟩]
          loadedFilterRefs := [[⟨0, 0, false⟩], [⟨0, 1, false⟩]] }
        0 1).loadedFilterRefs.getD 1 []).getD 0 default).filter_index = 0) ∧
    ((moveFilter
        { filterSet := [
            { pattern := "a", ignoreCase := false, foreColorName := "black", backColorName := "white", origin := 0, loaded_offset := 0 },
            { pattern := "b", ignoreCase := false, foreColorName := "black", backColorName := "white", origin := 1, loaded_offset := 0 }]
          namedFilterSets := [⟨"s0", [], false⟩, ⟨"s1", [], false⟩]
          loadedFilterRefs := [[⟨0, 0, false⟩], [⟨0, 1, false⟩]] }
        0 1).filterSet.getD 1 default).origin = 0 := by
  have h := c3_moveFilter_swaps_refs
    { filterSet := [
        { pattern := "a", ignoreCase := false, foreColorName := "black", backColorName := "white", origin := 0, loaded_offset := 0 },
        { pattern := "b", ignoreCase := false, foreColorName := "black", backColorName := "white", origin := 1, loaded_offset := 0 }]
      namedFilterSets := [⟨"s0", [], false⟩, ⟨"s1", [], false⟩]
      loadedFilterRefs := [[⟨0, 0, false⟩], [⟨0, 1, false⟩]] }
    0 1 0 0 (by decide) (by decide) (by decide) (by decide) (by decide)
    (by decide) (by decide)
  refine ⟨?_, ?_, ?_⟩
  · have := h.1
    simpa using this
  · have := h.2.1
    simpa using this
  · have := h.2.2.2.1
    simpa using this

/-! ### C6: drift sync (save change / undo change) -/

theorem applyRefs_length (cond : FilterRef → Bool) (sel : FilterRef → Nat)
    (g : FilterRef → Filter → Filter) :
    ∀ (refs : List FilterRef) (l : List Filter),
      (applyRefs cond sel g refs l).length = l.length := by
  intro refs
  induction refs with
  | nil => intro l; rfl
  | cons r rest ih =>
      intro l
      unfold applyRefs
      rw [ih]
      by_cases h : cond r
      · rw [if_pos h, listModify_length]
      · rw [if_neg h]

theorem applyRefs_getD_miss (cond : FilterRef → Bool) (sel : FilterRef → Nat)
    (g : FilterRef → Filter → Filter) (m : Nat) (d : Filter) :
    ∀ (refs : List FilterRef) (l : List Filter),
      (∀ j', j' < refs.length → cond (refs.getD j' default) = true →
        sel (refs.getD j' default) ≠ m) →
      (applyRefs cond sel g refs l).getD m d = l.getD m d := by
  intro refs
  induction refs with
  | nil => intro l _; rfl
  | cons r rest ih =>
      intro l hmiss
      unfold applyRefs
      rw [ih _ (fun j' hj' => hmiss (j' + 1) (by simpa using hj'))]
      by_cases h : cond r
      · rw [if_pos h, listModify_getD,
          if_neg (by
            intro hc
            exact hmiss 0 (by simp) (by simpa using h) (by simpa using hc.1))]
      · rw [if_neg h]

theorem applyRefs_getD_hit (cond : FilterRef → Bool) (sel : FilterRef → Nat)
    (g : FilterRef → Filter → Filter) (m : Nat) (d : Filter) :
    ∀ (refs : List FilterRef) (l : List Filter) (j : Nat),
      j < refs.length →
      cond (refs.getD j default) = true →
      sel (refs.getD j default) = m →
      m < l.length →
      (∀ j', j' < refs.length → j' ≠ j → cond (refs.getD j' default) = true →
        sel (refs.getD j' default) ≠ m) →
      (applyRefs cond sel g refs l).getD m d = g (refs.getD j default) (l.getD m d) := by
  intro refs
  induction refs with
  | nil => intro l j hj; simp at hj
  | cons r rest ih =>
      intro l j hj hc hs hm huniq
      cases j with
      | zero =>
          simp only [List.getD_cons_zero] at hc hs ⊢
          subst hs
          unfold applyRefs
          rw [applyRefs_getD_miss _ _ _ _ _ _ _
              (fun j' hj' hcj => huniq (j' + 1) (by simpa using hj') (by simp)
                (by simpa using hcj))]
          rw [if_pos hc, listModify_getD, if_pos ⟨rfl, hm⟩]
      | succ jj =>
          simp only [List.getD_cons_succ]
          unfold applyRefs
          have hstep : ∀ l' : List Filter,
              (if cond r then listModify l' (sel r) (g r) else l').getD m d = l'.getD m d := by
            intro l'
            by_cases h : cond r
            · rw [if_pos h, listModify_getD, if_neg (by
                intro hc2
                exact huniq 0 (by simp) (by simp) (by simpa using h) (by simpa using hc2.1))]
            · rw [if_neg h]
          have hsteplen : (if cond r then listModify l (sel r) (g r) else l).length = l.length := by
            by_cases h : cond r
            · rw [if_pos h, listModify_length]
            · rw [if_neg h]
          rw [ih _ jj (by simpa using hj) (by simpa using hc) (by simpa using hs)
              (by rw [hsteplen]; exact hm)
              (fun j' hj' hne hcj => huniq (j' + 1) (by simpa using hj')
                (by simpa using hne) (by simpa using hcj))]
          rw [hstep]

theorem copyPatternColors_eq_of_eqDrift (a b : Filter) (h : Filter.eqDrift a b = true) :
    copyPatternColors a b = b := by
  simp only [Filter.eqDrift, Bool.and_eq_true, beq_iff_eq] at h
  obtain ⟨⟨⟨hp, _⟩, hf⟩, hb⟩ := h
  simp [copyPatternColors, hp, hf, hb]

/-- C6.  Drift sync for the working entry referenced by
`loadedFilterRefs[row][j]`, bound to source `row` at offset
`o = loaded_index` with working position `fi = filter_index`:
"save change" copies the working entry's pattern and colours into the
source rule at offset `o` (leaving the rule's case-sensitivity and
origin bookkeeping untouched) and clears the reference's drift flag,
without touching the working list; "undo change" (for a drifted entry)
copies the source rule's pattern and colours into the working entry and
clears the flag, without touching the source's rules; and both are
no-ops on an entry without drift (`modified = false`, content equal
under `Filter::operator==`). -/
theorem c6_drift_sync (st : DialogState) (row j : Nat)
    (hrow1 : row < st.namedFilterSets.length)
    (hrow2 : row < st.loadedFilterRefs.length)
    (hj : j < (st.loadedFilterRefs.getD row []).length)
    (hactive : 0 ≤ ((st.loadedFilterRefs.getD row []).getD j default).filter_index)
    (hfi : ((st.loadedFilterRefs.getD row []).getD j default).filter_index.toNat
            < st.filterSet.length)
    (ho : ((st.loadedFilterRefs.getD row []).getD j default).loaded_index.toNat
            < (st.namedFilterSets.getD row default).set.length)
    (huniqS : ∀ j', j' < (st.loadedFilterRefs.getD row []).length → j' ≠ j →
      0 ≤ ((st.loadedFilterRefs.getD row []).getD j' default).filter_index →
      ((st.loadedFilterRefs.getD row []).getD j' default).loaded_index.toNat
        ≠ ((st.loadedFilterRefs.getD row []).getD j default).loaded_index.toNat)
    (huniqU : ∀ j', j' < (st.loadedFilterRefs.getD row []).length → j' ≠ j →
      ((st.loadedFilterRefs.getD row []).getD j' default).modified = true →
      ((st.loadedFilterRefs.getD row []).getD j' default).filter_index.toNat
        ≠ ((st.loadedFilterRefs.getD row []).getD j default).filter_index.toNat) :
    (((saveChanges st row).namedFilterSets.getD row default).set.getD
        ((st.loadedFilterRefs.getD row []).getD j default).loaded_index.toNat default
      = copyPatternColors
          (st.filterSet.getD
            ((st.loadedFilterRefs.getD row []).getD j default).filter_index.toNat default)
          ((st.namedFilterSets.getD row default).set.getD
            ((st.loadedFilterRefs.getD row []).getD j default).loaded_index.toNat default)) ∧
    ((((saveChanges st row).loadedFilterRefs.getD row []).getD j default).modified = false) ∧
    ((saveChanges st row).filterSet = st.filterSet) ∧
    (((st.loadedFilterRefs.getD row []).getD j default).modified = true →
      (undoChanges st row).filterSet.getD
          ((st.loadedFilterRefs.getD row []).getD j default).filter_index.toNat default
        = copyPatternColors
            ((st.namedFilterSets.getD row default).set.getD
              ((st.loadedFilterRefs.getD row []).getD j default).loaded_index.toNat default)
            (st.filterSet.getD
              ((st.loadedFilterRefs.getD row []).getD j default).filter_index.toNat default)) ∧
    ((((undoChanges st row).loadedFilterRefs.getD row []).getD j default).modified = false) ∧
    ((undoChanges st row).namedFilterSets = st.namedFilterSets) ∧
    (((st.loadedFilterRefs.getD row []).getD j default).modified = false →
      (undoChanges st row).filterSet.getD
          ((st.loadedFilterRefs.getD row []).getD j default).filter_index.toNat default
        = st.filterSet.getD
            ((st.loadedFilterRefs.getD row []).getD j default).filter_index.toNat default) ∧
    (((st.loadedFilterRefs.getD row []).getD j default).modified = false →
      Filter.eqDrift
        (st.filterSet.getD
          ((st.loadedFilterRefs.getD row []).getD j default).filter_index.toNat default)
        ((st.namedFilterSets.getD row default).set.getD
          ((st.loadedFilterRefs.getD row []).getD j default).loaded_index.toNat default) = true →
      ((saveChanges st row).namedFilterSets.getD row default).set.getD
          ((st.loadedFilterRefs.getD row []).getD j default).loaded_index.toNat default
        = (st.namedFilterSets.getD row default).set.getD
            ((st.loadedFilterRefs.getD row []).getD j default).loaded_index.toNat default) := by
  have hS1 : ((saveChanges st row).namedFilterSets.getD row default).set.getD
        ((st.loadedFilterRefs.getD row []).getD j default).loaded_index.toNat default
      = copyPatternColors
          (st.filterSet.getD
            ((st.loadedFilterRefs.getD row []).getD j default).filter_index.toNat default)
          ((st.namedFilterSets.getD row default).set.getD
            ((st.loadedFilterRefs.getD row []).getD j default).loaded_index.toNat default) := by
    simp only [saveChanges]
    rw [listModify_getD, if_pos ⟨rfl, hrow1⟩]
    exact applyRefs_getD_hit _ _ _ _ _ _ _ j hj (by simpa using hactive) rfl ho
      (fun j' hj' hne hcj => huniqS j' hj' hne (by simpa using hcj))
  refine ⟨hS1, ?_, rfl, ?_, ?_, rfl, ?_, ?_⟩
  · simp only [saveChanges]
    rw [listModify_getD, if_pos ⟨rfl, hrow2⟩,
      map_getD _ _ _ default default hj, if_pos hactive]
  · intro hmod
    simp only [undoChanges]
    exact applyRefs_getD_hit _ _ _ _ _ _ _ j hj (by simpa using hmod) rfl hfi
      (fun j' hj' hne hcj => huniqU j' hj' hne (by simpa using hcj))
  · simp only [undoChanges]
    rw [listModify_getD, if_pos ⟨rfl, hrow2⟩,
      map_getD _ _ _ default default hj]
    by_cases hmod : ((st.loadedFilterRefs.getD row []).getD j default).modified
    · rw [if_pos hmod]
    · rw [if_neg hmod]
      simpa using hmod
  · intro hmod
    simp only [undoChanges]
    apply applyRefs_getD_miss
    intro j' hj' hcj
    by_cases hne : j' = j
    · subst hne
      rw [hmod] at hcj
      cases hcj
    · exact huniqU j' hj' hne (by simpa using hcj)
  · intro _ heq
    rw [hS1, copyPatternColors_eq_of_eqDrift _ _ heq]

/-- Witness for C6 on a concrete state: one source (row 0) with one rule
`"old"`, one active, modified working entry `"new"` referencing it;
"save change" propagates `"new"` into the source rule and "undo change"
restores `"old"` into the working entry. -/
theorem c6_drift_sync_witness :
    (((saveChanges
        { filterSet := [
            { pattern := "new", ignoreCase := false, foreColorName := "red", backColorName := "white", origin := 0, loaded_offset := 0 }]
          namedFilterSets := [⟨"s0",
            [{ pattern := "old", ignoreCase := false, foreColorName := "black", backColorName := "white", origin := 0, loaded_offset := -1 }], false⟩]
          loadedFilterRefs := [[⟨0, 0, true⟩]] }
        0).namedFilterSets.getD 0 default).set.getD 0 default).pattern = "new" ∧
    ((undoChanges
        { filterSet := [
            { pattern := "new", ignoreCase := false, foreColorName := "red", backColorName := "white", origin := 0, loaded_offset := 0 }]
          namedFilterSets := [⟨"s0",
            [{ pattern := "old", ignoreCase := false, foreColorName := "black", backColorName := "white", origin := 0, loaded_offset := -1 }], false⟩]
          loadedFilterRefs := [[⟨0, 0, true⟩]] }
        0).filterSet.getD 0 default).pattern = "old" := by
  have h := c6_drift_sync
    { filterSet := [
        { pattern := "new", ignoreCase := false, foreColorName := "red", backColorName := "white", origin := 0, loaded_offset := 0 }]
      namedFilterSets := [⟨"s0",
        [{ pattern := "old", ignoreCase := false, foreColorName := "black", backColorName := "white", origin := 0, loaded_offset := -1 }], false⟩]
      loadedFilterRefs := [[⟨0, 0, true⟩]] }
    0 0 (by decide) (by decide) (by decide) (by decide) (by decide) (by decide)
    (by intro j' hj' hne; simp at hj'; simp [hj'] at hne)
    (by intro j' hj' hne; simp at hj'; simp [hj'] at hne)
  constructor
  · have h1 := h.1
    simp at h1
    simp [h1, copyPatternColors]
  · have h2 := h.2.2.2.1 (by decide)
    simp at h2
    simp [h2, copyPatternColors]

/-! ### C4 / C10: retrieve-reconciliation of an out-of-range offset -/

theorem findSetIdx_some_spec (fname : String) :
    ∀ (l : List NamedFilterSet) (k : Nat), findSetIdx l fname = some k →
      k < l.length ∧ (l.getD k default).filename = fname := by
  intro l
  induction l with
  | nil => intro k h; simp [findSetIdx] at h
  | cons ns rest ih =>
      intro k h
      unfold findSetIdx at h
      by_cases hn : ns.filename == fname
      · rw [if_pos hn] at h
        cases h
        exact ⟨by simp, by simpa using hn⟩
      · rw [if_neg hn] at h
        rcases Option.map_eq_some'.mp h with ⟨k', hk', rfl⟩
        rcases ih k' hk' with ⟨h1, h2⟩
        exact ⟨by simpa using h1, by simpa using h2⟩

theorem placeholderRun_length (originIdx : Int) (start stop : Nat) :
    (placeholderRun originIdx start stop).length = stop - start := by
  unfold placeholderRun
  rw [List.length_map, List.length_range']

theorem placeholderRun_getD (originIdx : Int) (start stop j : Nat) (h : j < stop - start) :
    (placeholderRun originIdx start stop).getD j default =
      { pattern := "", ignoreCase := false, foreColorName := "black",
        backColorName := "black", enabled := true, origin := originIdx,
        loaded_offset := ((start + j : Nat) : Int) } := by
  unfold placeholderRun
  have hlen : j < (List.range' start (stop - start)).length := by
    rw [List.length_range']; exact h
  rw [map_getD _ _ _ 0 default hlen, List.getD_eq_getElem _ _ hlen, List.getElem_range'_1]

theorem retrieve_found (env : Env) (r : StoredFilter) (originArg : Int)
    (lfs : List NamedFilterSet) (k : Nat)
    (hne : r.origin ≠ "") (hfind : findSetIdx lfs r.origin = some k) :
    Filter.retrieveFromStorage env r originArg lfs =
      (finalizeOrigin originArg { Filter.fromStored r with origin := (k : Int) }
        (hostInMissing { Filter.fromStored r with origin := (k : Int) } lfs k
          (lfs.getD k default).missing)
        (some k),
       hostInMissing { Filter.fromStored r with origin := (k : Int) } lfs k
         (lfs.getD k default).missing) := by
  simp only [Filter.retrieveFromStorage, if_neg hne, hfind]

theorem hostInMissing_false (self : Filter) (lfs : List NamedFilterSet) (k : Nat) :
    hostInMissing self lfs k false = lfs := rfl

theorem hostInMissing_grow (self : Filter) (lfs : List NamedFilterSet) (k : Nat)
    (hoffne : self.loaded_offset ≠ -1)
    (hout : ((lfs.getD k default).set.length : Int) ≤ self.loaded_offset) :
    hostInMissing self lfs k true =
      listModify lfs k (fun ns =>
        { ns with set := ns.set ++ (placeholderRun self.origin ns.set.length
            self.loaded_offset.toNat ++ [self]) }) := by
  unfold hostInMissing
  rw [if_pos rfl, if_neg hoffne, if_pos hout]

theorem hostInMissing_overwrite (self : Filter) (lfs : List NamedFilterSet) (k : Nat)
    (hoffne : self.loaded_offset ≠ -1)
    (hin : self.loaded_offset < ((lfs.getD k default).set.length : Int)) :
    hostInMissing self lfs k true =
      listModify lfs k (fun ns =>
        { ns with set := listModify ns.set self.loaded_offset.toNat (fun _ => self) }) := by
  unfold hostInMissing
  rw [if_pos rfl, if_neg hoffne, if_neg (by omega)]

theorem finalizeOrigin_neg_unbound (originArg : Int) (self : Filter)
    (lfs : List NamedFilterSet) (setIdx : Option Nat)
    (h1 : originArg < 0) (h2 : self.origin < 0) :
    finalizeOrigin originArg self lfs setIdx =
      (if 0 ≤ self.loaded_offset then { self with loaded_offset := -1 } else self) := by
  unfold finalizeOrigin
  rw [if_neg (by omega), if_pos h2]

theorem finalizeOrigin_neg_bound_valid (originArg : Int) (self : Filter)
    (lfs : List NamedFilterSet) (k : Nat)
    (h1 : originArg < 0) (h2 : 0 ≤ self.origin) (h3 : 0 ≤ self.loaded_offset)
    (h4 : self.loaded_offset < ((lfs.getD k default).set.length : Int)) :
    finalizeOrigin originArg self lfs (some k) = self := by
  unfold finalizeOrigin
  rw [if_neg (by omega), if_neg (by omega)]
  exact if_neg (by omega)

theorem finalizeOrigin_neg_bound_invalid (originArg : Int) (self : Filter)
    (lfs : List NamedFilterSet) (k : Nat)
    (h1 : originArg < 0) (h2 : 0 ≤ self.origin)
    (h3 : self.loaded_offset < 0 ∨ ((lfs.getD k default).set.length : Int) ≤ self.loaded_offset) :
    finalizeOrigin originArg self lfs (some k) =
      { self with origin := -1, loaded_offset := -1 } := by
  unfold finalizeOrigin
  rw [if_neg (by omega), if_neg (by omega)]
  exact if_pos h3

/-- C4.  Loading a stored working entry bound (by filename, found at
index `k`) to a source whose rule count does not cover the entry's
non-negative `loaded_offset`, with no caller-supplied origin: if the
bound source is missing, its rule list is grown with placeholders up to
the offset, the entry's own data becomes the tail rule at that offset,
and the entry keeps its binding; if the bound source is present, the
entry's `origin` and `loaded_offset` are both reset to `-1` (the
corruption is only logged).  Both cases return normally — the embedding
is a total function, mirroring that no error is raised to the caller. -/
theorem c4_out_of_range_offset (env : Env) (r : StoredFilter) (lfs : List NamedFilterSet)
    (k : Nat)
    (hne : r.origin ≠ "")
    (hfind : findSetIdx lfs r.origin = some k)
    (hoff : 0 ≤ r.loaded_offset)
    (hout : (((lfs.getD k default).set.length : Nat) : Int) ≤ r.loaded_offset) :
    ((lfs.getD k default).missing = true →
      (Filter.retrieveFromStorage env r (-1) lfs).2
        = listModify lfs k (fun ns =>
            { ns with set := ns.set ++ (placeholderRun (k : Int) ns.set.length
                r.loaded_offset.toNat ++ [{ Filter.fromStored r with origin := (k : Int) }]) }) ∧
      (Filter.retrieveFromStorage env r (-1) lfs).1
        = { Filter.fromStored r with origin := (k : Int) }) ∧
    ((lfs.getD k default).missing = false →
      (Filter.retrieveFromStorage env r (-1) lfs).1
        = { Filter.fromStored r with origin := -1, loaded_offset := -1 } ∧
      (Filter.retrieveFromStorage env r (-1) lfs).2 = lfs) := by
  have hk := findSetIdx_some_spec r.origin lfs k hfind
  have hoffne : ({ Filter.fromStored r with origin := (k : Int) } : Filter).loaded_offset ≠ -1 :=
    by show r.loaded_offset ≠ -1; omega
  have hself3 : (0 : Int) ≤ ({ Filter.fromStored r with origin := (k : Int) } : Filter).origin :=
    by show (0 : Int) ≤ (k : Int); omega
  have hsoff : ({ Filter.fromStored r with origin := (k : Int) } : Filter).loaded_offset
      = r.loaded_offset := rfl
  constructor
  · intro hmiss
    rw [retrieve_found env r (-1) lfs k hne hfind, hmiss]
    rw [hostInMissing_grow _ _ _ hoffne hout]
    refine ⟨rfl, ?_⟩
    rw [finalizeOrigin_neg_bound_valid _ _ _ _ (by omega) hself3
      (by show (0 : Int) ≤ r.loaded_offset; omega)
      (by
        show r.loaded_offset < _
        rw [listModify_getD, if_pos ⟨rfl, hk.1⟩]
        simp only [List.length_append, placeholderRun_length, List.length_cons,
          List.length_nil, Filter.fromStored]
        omega)]
  · intro hmiss
    rw [retrieve_found env r (-1) lfs k hne hfind, hmiss, hostInMissing_false]
    refine ⟨?_, rfl⟩
    rw [finalizeOrigin_neg_bound_invalid _ _ _ _ (by omega) hself3
      (Or.inr (by show ((lfs.getD k default).set.length : Int) ≤ r.loaded_offset; omega))]

/-- Witness for C4: a missing one-entry registry hosting an orphaned
entry with offset 2 grows the set; a present registry with an
out-of-range offset drops the binding. -/
theorem c4_out_of_range_offset_witness :
    ((Filter.retrieveFromStorage ⟨fun _ => false, fun _ => [], []⟩
        ⟨"pat", false, "red", "blue", "m1", 2⟩ (-1) [⟨"m1", [], true⟩]).1
      = { pattern := "pat", ignoreCase := false, foreColorName := "red",
          backColorName := "blue", enabled := true, origin := 0, loaded_offset := 2 }) ∧
    ((Filter.retrieveFromStorage ⟨fun _ => false, fun _ => [], []⟩
        ⟨"pat", false, "red", "blue", "p1", 2⟩ (-1)
        [⟨"p1", [⟨"a", false, "black", "white", true, 0, -1⟩], false⟩]).1
      = { pattern := "pat", ignoreCase := false, foreColorName := "red",
          backColorName := "blue", enabled := true, origin := -1, loaded_offset := -1 }) := by
  constructor
  · have h := (c4_out_of_range_offset ⟨fun _ => false, fun _ => [], []⟩
      ⟨"pat", false, "red", "blue", "m1", 2⟩ [⟨"m1", [], true⟩] 0
      (by decide) (by decide) (by decide) (by decide)).1 (by decide)
    rw [h.2]
    decide
  · have h := (c4_out_of_range_offset ⟨fun _ => false, fun _ => [], []⟩
      ⟨"pat", false, "red", "blue", "p1", 2⟩
      [⟨"p1", [⟨"a", false, "black", "white", true, 0, -1⟩], false⟩] 0
      (by decide) (by decide) (by decide) (by decide)).2 (by decide)
    rw [h.1]
    decide

/-- C10.  Hosting a working entry's data in a missing source bound at
index `k` with a non-negative offset `o`, during retrieve-reconciliation:
when `o` is at least the source's current rule count, the rule list is
grown to length exactly `o + 1`, every newly created placeholder at
index `i` has an empty pattern, black colours, origin `k` and offset
`i`, and the rule at index `o` equals the working entry's own data
(bound to `k`); when `o` is already in range, the existing rule at
index `o` is overwritten in place with the working entry's data. -/
theorem c10_missing_source_hosting (env : Env) (r : StoredFilter) (lfs : List NamedFilterSet)
    (k : Nat)
    (hne : r.origin ≠ "")
    (hfind : findSetIdx lfs r.origin = some k)
    (hmiss : (lfs.getD k default).missing = true)
    (hoff : 0 ≤ r.loaded_offset) :
    ((((lfs.getD k default).set.length : Nat) : Int) ≤ r.loaded_offset →
      (((Filter.retrieveFromStorage env r (-1) lfs).2.getD k default).set.length
        = r.loaded_offset.toNat + 1) ∧
      (∀ i, (lfs.getD k default).set.length ≤ i → i < r.loaded_offset.toNat →
        ((Filter.retrieveFromStorage env r (-1) lfs).2.getD k default).set.getD i default
          = { pattern := "", ignoreCase := false, foreColorName := "black",
              backColorName := "black", enabled := true, origin := (k : Int),
              loaded_offset := (i : Int) }) ∧
      (((Filter.retrieveFromStorage env r (-1) lfs).2.getD k default).set.getD
          r.loaded_offset.toNat default
        = { Filter.fromStored r with origin := (k : Int) })) ∧
    (r.loaded_offset < (((lfs.getD k default).set.length : Nat) : Int) →
      (Filter.retrieveFromStorage env r (-1) lfs).2
        = listModify lfs k (fun ns =>
            { ns with set := listModify ns.set r.loaded_offset.toNat (fun _ =>
                { Filter.fromStored r with origin := (k : Int) }) })) := by
  have hk := findSetIdx_some_spec r.origin lfs k hfind
  have hoffne : ({ Filter.fromStored r with origin := (k : Int) } : Filter).loaded_offset ≠ -1 :=
    by show r.loaded_offset ≠ -1; omega
  constructor
  · intro hout
    have hbase : (Filter.retrieveFromStorage env r (-1) lfs).2
        = listModify lfs k (fun ns =>
            { ns with set := ns.set ++ (placeholderRun
                ({ Filter.fromStored r with origin := (k : Int) } : Filter).origin ns.set.length
                ({ Filter.fromStored r with origin := (k : Int) } : Filter).loaded_offset.toNat
              ++ [{ Filter.fromStored r with origin := (k : Int) }]) }) := by
      rw [retrieve_found env r (-1) lfs k hne hfind, hmiss,
        hostInMissing_grow _ _ _ hoffne hout]
    have hset : ((Filter.retrieveFromStorage env r (-1) lfs).2.getD k default).set
        = (lfs.getD k default).set ++ (placeholderRun (k : Int)
            (lfs.getD k default).set.length r.loaded_offset.toNat
          ++ [{ Filter.fromStored r with origin := (k : Int) }]) := by
      rw [hbase, listModify_getD, if_pos ⟨rfl, hk.1⟩]
      rfl
    have hle : (lfs.getD k default).set.length ≤ r.loaded_offset.toNat := by omega
    refine ⟨?_, ?_, ?_⟩
    · rw [hset]
      simp only [List.length_append, placeholderRun_length, List.length_cons, List.length_nil]
      omega
    · intro i hi1 hi2
      rw [hset, List.getD_append_right _ _ _ _ hi1,
        List.getD_append _ _ _ _ (by rw [placeholderRun_length]; omega),
        placeholderRun_getD _ _ _ _ (by omega), Nat.add_sub_cancel' hi1]
    · rw [hset, List.getD_append_right _ _ _ _ hle,
        List.getD_append_right _ _ _ _ (by rw [placeholderRun_length]),
        placeholderRun_length, Nat.sub_self]
      rfl
  · intro hin
    rw [retrieve_found env r (-1) lfs k hne hfind, hmiss,
      hostInMissing_overwrite _ _ _ hoffne (by show r.loaded_offset < _; exact hin)]
    rfl

/-- Witness for C10: hosting an entry with offset 1 in a missing source
that already has one rule yields a two-rule list whose tail is the
entry's own data; hosting an entry with offset 0 in that source
overwrites its first rule in place. -/
theorem c10_missing_source_hosting_witness :
    (((Filter.retrieveFromStorage ⟨fun _ => false, fun _ => [], []⟩
        ⟨"pat", false, "red", "blue", "m2", 1⟩ (-1)
        [⟨"m2", [⟨"x", false, "black", "black", true, 0, 0⟩], true⟩]).2.getD
          0 default).set.length = 2) ∧
    ((Filter.retrieveFromStorage ⟨fun _ => false, fun _ => [], []⟩
        ⟨"pat", false, "red", "blue", "m2", 0⟩ (-1)
        [⟨"m2", [⟨"x", false, "black", "black", true, 0, 0⟩], true⟩]).2
      = [⟨"m2", [⟨"pat", false, "red", "blue", true, 0, 0⟩], true⟩]) := by
  constructor
  · exact ((c10_missing_source_hosting ⟨fun _ => false, fun _ => [], []⟩
      ⟨"pat", false, "red", "blue", "m2", 1⟩
      [⟨"m2", [⟨"x", false, "black", "black", true, 0, 0⟩], true⟩] 0
      (by decide) (by decide) (by decide) (by decide)).1 (by decide)).1
  · have h := (c10_missing_source_hosting ⟨fun _ => false, fun _ => [], []⟩
      ⟨"pat", false, "red", "blue", "m2", 0⟩
      [⟨"m2", [⟨"x", false, "black", "black", true, 0, 0⟩], true⟩] 0
      (by decide) (by decide) (by decide) (by decide)).2 (by decide)
    rw [h]
    decide

/-! ### Registry retrieval characterisation (towards C5 and C7) -/

theorem listModify_congr (l : List α) (i : Nat) (f g : α → α) (h : ∀ a, f a = g a) :
    listModify l i f = listModify l i g := by
  induction l generalizing i with
  | nil => rfl
  | cons a as ih =>
      cases i with
      | zero => simp [listModify, h a]
      | succ n => simp [listModify, ih n]

theorem listModify_id (l : List α) (i : Nat) : listModify l i (fun a => a) = l := by
  induction l generalizing i with
  | nil => rfl
  | cons a as ih =>
      cases i with
      | zero => rfl
      | succ n => simp [listModify, ih n]

theorem listModify_comp (l : List α) (i : Nat) (f g : α → α) :
    listModify (listModify l i f) i g = listModify l i (fun a => g (f a)) := by
  induction l generalizing i with
  | nil => rfl
  | cons a as ih =>
      cases i with
      | zero => rfl
      | succ n => simp [listModify, ih n]

theorem listModify_append_last (l : List α) (x : α) (f : α → α) :
    listModify (l ++ [x]) l.length f = l ++ [f x] := by
  induction l with
  | nil => rfl
  | cons a as ih => simp [listModify, ih]

theorem getD_append_last (l : List α) (x : α) (d : α) :
    (l ++ [x]).getD l.length d = x := by
  rw [List.getD_append_right _ _ _ _ (Nat.le_refl _), Nat.sub_self]
  rfl

theorem mapIdxFrom_length (f : Nat → α → β) :
    ∀ (l : List α) (n : Nat), (mapIdxFrom n f l).length = l.length := by
  intro l
  induction l with
  | nil => intro n; rfl
  | cons a as ih => intro n; simp [mapIdxFrom, ih]

theorem mapIdxFrom_getD (f : Nat → α → β) (d : α) (d' : β) :
    ∀ (l : List α) (n i : Nat), i < l.length →
      (mapIdxFrom n f l).getD i d' = f (n + i) (l.getD i d) := by
  intro l
  induction l with
  | nil => intro n i h; simp at h
  | cons a as ih =>
      intro n i h
      cases i with
      | zero => simp [mapIdxFrom]
      | succ m =>
          simp only [mapIdxFrom, List.getD_cons_succ]
          rw [ih (n + 1) m (by simpa using h)]
          congr 1
          omega

theorem mapIdxFrom_map (f : Nat → β → γ) (g : α → β) :
    ∀ (l : List α) (n : Nat), mapIdxFrom n f (l.map g) = mapIdxFrom n (fun i a => f i (g a)) l := by
  intro l
  induction l with
  | nil => intro n; rfl
  | cons a as ih => intro n; simp [mapIdxFrom, ih]

theorem eqDrift_refl (a : Filter) : Filter.eqDrift a a = true := by
  simp [Filter.eqDrift]

theorem listEqF_refl (l : List Filter) : listEqF l l = true := by
  induction l with
  | nil => rfl
  | cons a as ih => simp [listEqF, eqDrift_refl, ih]

theorem retrieve_record_no_origin (env : Env) (r : StoredFilter) (originArg : Int)
    (lfs : List NamedFilterSet)
    (h1 : r.origin = "") (h2 : r.loaded_offset = -1) (h3 : 0 ≤ originArg) :
    Filter.retrieveFromStorage env r originArg lfs = (reloadedFilter originArg r, lfs) := by
  unfold Filter.retrieveFromStorage
  rw [if_pos h1]
  unfold finalizeOrigin
  rw [if_pos h3, if_neg (by show ¬(0 : Int) ≤ r.loaded_offset; omega)]
  rfl

theorem retrieve_record_no_origin_neg (env : Env) (r : StoredFilter) (originArg : Int)
    (lfs : List NamedFilterSet)
    (h1 : r.origin = "") (h2 : r.loaded_offset = -1) (h3 : originArg < 0) :
    Filter.retrieveFromStorage env r originArg lfs = (Filter.fromStored r, lfs) := by
  unfold Filter.retrieveFromStorage
  rw [if_pos h1]
  unfold finalizeOrigin
  rw [if_neg (by omega), if_pos (by show (-1 : Int) < 0; omega),
    if_neg (by show ¬(0 : Int) ≤ r.loaded_offset; omega)]

theorem retrieveSetInto_no_origin (env : Env) (originArg : Int) (h3 : 0 ≤ originArg) :
    ∀ (snap : List StoredFilter) (lfs : List NamedFilterSet) (k : Nat),
      (∀ r ∈ snap, r.origin = "" ∧ r.loaded_offset = -1) → k < lfs.length →
      retrieveSetInto env snap originArg lfs k
        = listModify lfs k (fun ns => { ns with set := ns.set ++ snap.map (reloadedFilter originArg) }) := by
  intro snap
  induction snap with
  | nil =>
      intro lfs k _ _
      rw [show (retrieveSetInto env [] originArg lfs k = lfs) from rfl]
      rw [listModify_congr _ _ _ (fun a => a) (by intro a; simp), listModify_id]
  | cons r rest ih =>
      intro lfs k hno hk
      have hr := hno r (by simp)
      unfold retrieveSetInto
      rw [retrieve_record_no_origin env r originArg lfs hr.1 hr.2 h3]
      rw [ih _ k (fun r' hr' => hno r' (by simp [hr'])) (by rw [listModify_length]; exact hk)]
      rw [listModify_comp]
      apply listModify_congr
      intro a
      simp [List.append_assoc]

theorem retrieveList_no_origin (env : Env) (originArg : Int) (h3 : 0 ≤ originArg) :
    ∀ (stored : List StoredFilter) (lfs : List NamedFilterSet),
      (∀ r ∈ stored, r.origin = "" ∧ r.loaded_offset = -1) →
      FilterSet.retrieveList env stored originArg lfs
        = (stored.map (reloadedFilter originArg), lfs) := by
  intro stored
  induction stored with
  | nil => intro lfs _; rfl
  | cons r rest ih =>
      intro lfs hno
      have hr := hno r (by simp)
      show (((Filter.retrieveFromStorage env r originArg lfs).1
          :: (FilterSet.retrieveList env rest originArg (Filter.retrieveFromStorage env r originArg lfs).2).1),
        (FilterSet.retrieveList env rest originArg (Filter.retrieveFromStorage env r originArg lfs).2).2) = _
      rw [retrieve_record_no_origin env r originArg lfs hr.1 hr.2 h3]
      rw [ih lfs (fun r' hr' => hno r' (by simp [hr']))]
      rfl

theorem retrieveAux_entry_step (env : Env) (ask : String → Bool) (fname : String)
    (snap : List StoredFilter) (rest : List (String × List StoredFilter))
    (lfs : List NamedFilterSet)
    (hsnap : ∀ r ∈ snap, r.origin = "" ∧ r.loaded_offset = -1)
    (hfile : env.fileExists fname = true →
      ∀ r ∈ env.fileFilters fname, r.origin = "" ∧ r.loaded_offset = -1) :
    LoadedFilterSets.retrieveAux env ask ((fname, snap) :: rest) lfs
      = LoadedFilterSets.retrieveAux env ask rest
          (lfs ++ [entryReload env ask lfs.length (fname, snap)]) := by
  have hstep : retrieveSetInto env snap (Int.ofNat lfs.length)
      (lfs ++ [⟨fname, [], false⟩]) lfs.length
      = lfs ++ [⟨fname, snap.map (reloadedFilter (Int.ofNat lfs.length)), false⟩] := by
    rw [retrieveSetInto_no_origin env (Int.ofNat lfs.length) (by exact Int.ofNat_nonneg _)
      snap _ _ hsnap (by simp)]
    rw [listModify_append_last]
    rfl
  simp only [LoadedFilterSets.retrieveAux]
  rw [hstep]
  congr 1
  by_cases hex : env.fileExists fname
  · rw [if_pos hex]
    rw [retrieveList_no_origin env (Int.ofNat lfs.length) (by exact Int.ofNat_nonneg _)
      _ _ (hfile hex)]
    simp only [getD_append_last]
    unfold entryReload
    rw [if_pos hex]
    by_cases heq : listEqF ((env.fileFilters fname).map (reloadedFilter (Int.ofNat lfs.length)))
        (snap.map (reloadedFilter (Int.ofNat lfs.length)))
    · rw [if_pos heq, if_pos heq]
    · rw [if_neg heq, if_neg heq]
      by_cases hask : ask fname
      · rw [if_pos hask, if_pos hask, listModify_append_last]
      · rw [if_neg hask, if_neg hask]
  · rw [if_neg hex]
    unfold entryReload
    rw [if_neg hex, listModify_append_last]

theorem retrieveAux_spec (env : Env) (ask : String → Bool) :
    ∀ (entries : List (String × List StoredFilter)) (lfs0 : List NamedFilterSet),
      (∀ e ∈ entries, (∀ r ∈ e.2, r.origin = "" ∧ r.loaded_offset = -1) ∧
        (env.fileExists e.1 = true →
          ∀ r ∈ env.fileFilters e.1, r.origin = "" ∧ r.loaded_offset = -1)) →
      LoadedFilterSets.retrieveAux env ask entries lfs0
        = lfs0 ++ mapIdxFrom lfs0.length (entryReload env ask) entries := by
  intro entries
  induction entries with
  | nil => intro lfs0 _; simp [LoadedFilterSets.retrieveAux, mapIdxFrom]
  | cons e rest ih =>
      intro lfs0 hno
      obtain ⟨fname, snap⟩ := e
      have he := hno (fname, snap) (by simp)
      rw [retrieveAux_entry_step env ask fname snap rest lfs0 he.1 he.2]
      rw [ih _ (fun e' he' => hno e' (by simp [he']))]
      simp [mapIdxFrom, List.append_assoc]

/-! ### C5: registry retrieval against the filesystem -/

/-- Counterexample for C5 as stated: retrieving a registry whose single
serialized source has a one-rule persisted snapshot while its backing
file does not exist yields a RuleSource with `missing = true` whose rule
list is the persisted snapshot — not an empty placeholder list as the
claim states. -/
theorem c5_missing_file_counterexample :
    ((LoadedFilterSets.retrieve ⟨fun _ => false, fun _ => [], []⟩ (fun _ => true)
        [("f1", [⟨"a", false, "black", "white", "", -1⟩])]).getD 0 default).missing = true ∧
    ((LoadedFilterSets.retrieve ⟨fun _ => false, fun _ => [], []⟩ (fun _ => true)
        [("f1", [⟨"a", false, "black", "white", "", -1⟩])]).getD 0 default).set ≠ [] := by
  decide

/-- C5 (amended).  During `LoadedFilterSets::retrieveFromStorage` (with
an empty auto directory, and snapshots/filter files in the origin-free
format `saveToStorage` writes), for each serialized explicit source:
when the backing file exists on disk the source is not missing, the rule
list is re-read from the file and compared with the reloaded snapshot —
if they agree the snapshot stands, if they differ the caller is asked
and "yes" installs the freshly read content while "no" keeps the
previously persisted content; when the backing file does not exist the
source is marked `missing = true` and KEEPS the previously persisted
rule list (the claim's "empty placeholder rule list" holds only when the
persisted snapshot itself was empty). -/
theorem c5_registry_retrieve (env : Env) (ask : String → Bool)
    (entries : List (String × List StoredFilter)) (i : Nat)
    (hauto : env.autoFiles = [])
    (hno : ∀ e ∈ entries, (∀ r ∈ e.2, r.origin = "" ∧ r.loaded_offset = -1) ∧
      (env.fileExists e.1 = true →
        ∀ r ∈ env.fileFilters e.1, r.origin = "" ∧ r.loaded_offset = -1))
    (hi : i < entries.length) :
    (env.fileExists (entries.getD i default).1 = true →
      ((LoadedFilterSets.retrieve env ask entries).getD i default).missing = false ∧
      (listEqF ((env.fileFilters (entries.getD i default).1).map (reloadedFilter (Int.ofNat i)))
          ((entries.getD i default).2.map (reloadedFilter (Int.ofNat i))) = true →
        ((LoadedFilterSets.retrieve env ask entries).getD i default).set
          = (entries.getD i default).2.map (reloadedFilter (Int.ofNat i))) ∧
      (listEqF ((env.fileFilters (entries.getD i default).1).map (reloadedFilter (Int.ofNat i)))
          ((entries.getD i default).2.map (reloadedFilter (Int.ofNat i))) = false →
        ask (entries.getD i default).1 = true →
        ((LoadedFilterSets.retrieve env ask entries).getD i default).set
          = (env.fileFilters (entries.getD i default).1).map (reloadedFilter (Int.ofNat i))) ∧
      (listEqF ((env.fileFilters (entries.getD i default).1).map (reloadedFilter (Int.ofNat i)))
          ((entries.getD i default).2.map (reloadedFilter (Int.ofNat i))) = false →
        ask (entries.getD i default).1 = false →
        ((LoadedFilterSets.retrieve env ask entries).getD i default).set
          = (entries.getD i default).2.map (reloadedFilter (Int.ofNat i)))) ∧
    (env.fileExists (entries.getD i default).1 = false →
      ((LoadedFilterSets.retrieve env ask entries).getD i default).missing = true ∧
      ((LoadedFilterSets.retrieve env ask entries).getD i default).set
        = (entries.getD i default).2.map (reloadedFilter (Int.ofNat i))) := by
  have hbase : (LoadedFilterSets.retrieve env ask entries).getD i default
      = entryReload env ask i (entries.getD i default) := by
    unfold LoadedFilterSets.retrieve
    rw [hauto]
    rw [retrieveAux_spec env ask entries [] hno]
    simp only [autoAppend, List.nil_append, List.length_nil]
    rw [mapIdxFrom_getD (entryReload env ask) default default entries 0 i hi]
    simp only [Nat.zero_add]
  rw [hbase]
  unfold entryReload
  constructor
  · intro hex
    rw [if_pos hex]
    by_cases heq : listEqF ((env.fileFilters (entries.getD i default).1).map
        (reloadedFilter (Int.ofNat i)))
        ((entries.getD i default).2.map (reloadedFilter (Int.ofNat i)))
    · rw [if_pos heq]
      exact ⟨rfl, fun _ => rfl, fun hne _ => absurd heq (by rw [hne]; exact Bool.false_ne_true),
        fun hne _ => absurd heq (by rw [hne]; exact Bool.false_ne_true)⟩
    · rw [if_neg heq]
      by_cases hask : ask (entries.getD i default).1
      · rw [if_pos hask]
        exact ⟨rfl, fun h => absurd h heq, fun _ _ => rfl,
          fun _ hf => absurd hask (by rw [hf]; exact Bool.false_ne_true)⟩
      · rw [if_neg hask]
        exact ⟨rfl, fun h => absurd h heq, fun _ ht => absurd ht hask, fun _ _ => rfl⟩
  · intro hex
    rw [if_neg (by rw [hex]; exact Bool.false_ne_true)]
    exact ⟨rfl, rfl⟩

/-- Witness for C5 (amended) at concrete inputs: with one serialized
source whose file is absent, the result is missing and keeps the
snapshot; with one whose file is present, differing, and the reload
declined, the snapshot is kept and the source is not missing. -/
theorem c5_registry_retrieve_witness :
    (((LoadedFilterSets.retrieve ⟨fun _ => false, fun _ => [], []⟩ (fun _ => false)
        [("g1", [⟨"a", false, "black", "white", "", -1⟩])]).getD 0 default).missing = true ∧
      ((LoadedFilterSets.retrieve ⟨fun _ => false, fun _ => [], []⟩ (fun _ => false)
        [("g1", [⟨"a", false, "black", "white", "", -1⟩])]).getD 0 default).set
        = [⟨"a", false, "black", "white", true, 0, -1⟩]) ∧
    ((LoadedFilterSets.retrieve
        ⟨fun _ => true, fun _ => [⟨"b", false, "red", "white", "", -1⟩], []⟩ (fun _ => false)
        [("g1", [⟨"a", false, "black", "white", "", -1⟩])]).getD 0 default).set
      = [⟨"a", false, "black", "white", true, 0, -1⟩] := by
  constructor
  · have h := (c5_registry_retrieve ⟨fun _ => false, fun _ => [], []⟩ (fun _ => false)
      [("g1", [⟨"a", false, "black", "white", "", -1⟩])] 0 rfl
      (by intro e he; constructor
          · intro r hr
            simp at he
            rw [he] at hr
            simp at hr
            rw [hr]
            exact ⟨rfl, rfl⟩
          · intro hex
            cases hex)
      (by decide)).2 rfl
    refine ⟨h.1, ?_⟩
    rw [h.2]
    decide
  · have h := ((c5_registry_retrieve
      ⟨fun _ => true, fun _ => [⟨"b", false, "red", "white", "", -1⟩], []⟩ (fun _ => false)
      [("g1", [⟨"a", false, "black", "white", "", -1⟩])] 0 rfl
      (by intro e he; constructor
          · intro r hr
            simp at he
            rw [he] at hr
            simp at hr
            rw [hr]
            exact ⟨rfl, rfl⟩
          · intro _ r hr
            simp at hr
            rw [hr]
            exact ⟨rfl, rfl⟩)
      (by decide)).1 rfl).2.2.2 (by decide) rfl
    rw [h]
    decide

/-! ### C7: save / retrieve round-trip of the working set -/

theorem findSetIdx_at (fname : String) :
    ∀ (l : List NamedFilterSet) (k : Nat), k < l.length →
      (l.getD k default).filename = fname →
      (∀ i, i < k → (l.getD i default).filename ≠ fname) →
      findSetIdx l fname = some k := by
  intro l
  induction l with
  | nil => intro k hk; simp at hk
  | cons ns rest ih =>
      intro k hk hmatch hprev
      cases k with
      | zero =>
          unfold findSetIdx
          rw [if_pos (by simpa using hmatch)]
      | succ kk =>
          unfold findSetIdx
          rw [if_neg (by simpa using hprev 0 (Nat.succ_pos _))]
          rw [ih kk (by simpa using hk) (by simpa using hmatch)
            (fun i hi => by simpa using hprev (i + 1) (by omega))]
          rfl

theorem hostInMissing_preserves (self : Filter) (cur : List NamedFilterSet) (k : Nat)
    (hk : k < cur.length) (hoffpos : 0 ≤ self.loaded_offset) :
    (hostInMissing self cur k true).length = cur.length ∧
    (∀ i, ¬(k = i ∧ i < cur.length) →
      (hostInMissing self cur k true).getD i default = cur.getD i default) ∧
    ((hostInMissing self cur k true).getD k default).filename
      = (cur.getD k default).filename ∧
    ((hostInMissing self cur k true).getD k default).missing
      = (cur.getD k default).missing ∧
    self.loaded_offset < (((hostInMissing self cur k true).getD k default).set.length : Int) := by
  have hoffne : self.loaded_offset ≠ -1 := by omega
  by_cases hout : ((cur.getD k default).set.length : Int) ≤ self.loaded_offset
  · rw [hostInMissing_grow _ _ _ hoffne hout]
    refine ⟨listModify_length _ _ _, ?_, ?_, ?_, ?_⟩
    · intro i hi
      rw [listModify_getD, if_neg (by tauto)]
    · rw [listModify_getD, if_pos ⟨rfl, hk⟩]
    · rw [listModify_getD, if_pos ⟨rfl, hk⟩]
    · rw [listModify_getD, if_pos ⟨rfl, hk⟩]
      show self.loaded_offset < (((cur.getD k default).set ++ (placeholderRun self.origin
        (cur.getD k default).set.length self.loaded_offset.toNat ++ [self])).length : Int)
      simp only [List.length_append, placeholderRun_length, List.length_cons, List.length_nil]
      omega
  · rw [hostInMissing_overwrite _ _ _ hoffne (by omega)]
    refine ⟨listModify_length _ _ _, ?_, ?_, ?_, ?_⟩
    · intro i hi
      rw [listModify_getD, if_neg (by tauto)]
    · rw [listModify_getD, if_pos ⟨rfl, hk⟩]
    · rw [listModify_getD, if_pos ⟨rfl, hk⟩]
    · rw [listModify_getD, if_pos ⟨rfl, hk⟩]
      show self.loaded_offset < ((listModify (cur.getD k default).set
        self.loaded_offset.toNat (fun _ => self)).length : Int)
      rw [listModify_length]
      omega

theorem retrieve_saved_filter (env : Env) (lfs cur : List NamedFilterSet) (f : Filter)
    (hrel : RegRel lfs cur)
    (hdist : ∀ i j, i < lfs.length → j < lfs.length → i ≠ j →
      (lfs.getD i default).filename ≠ (lfs.getD j default).filename)
    (hname : ∀ i, i < lfs.length → (lfs.getD i default).filename ≠ "")
    (hwf : (f.origin = -1 ∧ f.loaded_offset = -1) ∨
      (0 ≤ f.origin ∧ f.origin.toNat < lfs.length ∧ 0 ≤ f.loaded_offset ∧
        ((lfs.getD f.origin.toNat default).missing = false →
          f.loaded_offset.toNat < (lfs.getD f.origin.toNat default).set.length))) :
    (Filter.retrieveFromStorage env (Filter.saveRecord lfs f) (-1) cur).1
      = { f with enabled := true } ∧
    RegRel lfs (Filter.retrieveFromStorage env (Filter.saveRecord lfs f) (-1) cur).2 := by
  rcases hwf with ⟨h1, h2⟩ | ⟨h1, h2, h3, h4⟩
  · have hrec : (Filter.saveRecord lfs f).origin = "" := by
      show (if f.origin ≠ -1 then _ else _) = ""
      rw [if_neg (by omega)]
    have hrec2 : (Filter.saveRecord lfs f).loaded_offset = -1 := h2
    rw [retrieve_record_no_origin_neg env _ (-1) cur hrec hrec2 (by omega)]
    refine ⟨?_, hrel⟩
    show Filter.fromStored (Filter.saveRecord lfs f) = _
    obtain ⟨fp, fic, ffc, fbc, fe, fo, fl⟩ := f
    simp only at h1 h2
    subst h1
    subst h2
    rfl
  · have horigne : f.origin ≠ -1 := by omega
    have hkey : (Filter.saveRecord lfs f).origin
        = (lfs.getD f.origin.toNat default).filename := by
      show (if f.origin ≠ -1 then _ else _) = _
      rw [if_pos horigne]
    have hne : (Filter.saveRecord lfs f).origin ≠ "" := by
      rw [hkey]
      exact hname f.origin.toNat h2
    have hfind : findSetIdx cur (Filter.saveRecord lfs f).origin = some f.origin.toNat := by
      rw [hkey]
      apply findSetIdx_at
      · rw [hrel.1]
        exact h2
      · rw [(hrel.2 f.origin.toNat h2).1]
      · intro i hi
        have hik : i < lfs.length := by omega
        rw [(hrel.2 i hik).1]
        exact hdist i f.origin.toNat hik h2 (by omega)
    rw [retrieve_found env _ (-1) cur f.origin.toNat hne hfind]
    have hselform : ({ Filter.fromStored (Filter.saveRecord lfs f) with
        origin := ((f.origin.toNat : Nat) : Int) } : Filter) = { f with enabled := true } := by
      have hc : ((f.origin.toNat : Nat) : Int) = f.origin := Int.toNat_of_nonneg h1
      rw [hc]
      obtain ⟨fp, fic, ffc, fbc, fe, fo, fl⟩ := f
      rfl
    have hcurmiss : (cur.getD f.origin.toNat default).missing
        = (lfs.getD f.origin.toNat default).missing := (hrel.2 f.origin.toNat h2).2.1
    by_cases hmiss : (lfs.getD f.origin.toNat default).missing
    · rw [hcurmiss, hmiss]
      have hk : f.origin.toNat < cur.length := by rw [hrel.1]; exact h2
      have hp := hostInMissing_preserves
        ({ Filter.fromStored (Filter.saveRecord lfs f) with
          origin := ((f.origin.toNat : Nat) : Int) }) cur f.origin.toNat hk
        (by show (0 : Int) ≤ f.loaded_offset; omega)
      constructor
      · rw [finalizeOrigin_neg_bound_valid _ _ _ _ (by omega)
          (by show (0 : Int) ≤ ((f.origin.toNat : Nat) : Int); omega)
          (by show (0 : Int) ≤ f.loaded_offset; omega) hp.2.2.2.2]
        exact hselform
      · constructor
        · rw [hp.1, hrel.1]
        · intro i hi
          by_cases hik : f.origin.toNat = i
          · subst hik
            refine ⟨hp.2.2.1.trans (hrel.2 _ h2).1, hp.2.2.2.1.trans hcurmiss, ?_⟩
            intro hfalse
            rw [hmiss] at hfalse
            cases hfalse
          · rw [hp.2.1 i (by tauto)]
            exact hrel.2 i hi
    · have hmf : (lfs.getD f.origin.toNat default).missing = false := by simpa using hmiss
      rw [hcurmiss, hmf, hostInMissing_false]
      constructor
      · rw [finalizeOrigin_neg_bound_valid _ _ _ _ (by omega)
          (by show (0 : Int) ≤ ((f.origin.toNat : Nat) : Int); omega)
          (by show (0 : Int) ≤ f.loaded_offset; omega)
          (by
            show f.loaded_offset < ((cur.getD f.origin.toNat default).set.length : Int)
            rw [(hrel.2 f.origin.toNat h2).2.2 (by simpa using hmiss)]
            have := h4 (by simpa using hmiss)
            omega)]
        exact hselform
      · exact hrel

theorem retrieveList_saved (env : Env) (lfs : List NamedFilterSet)
    (hdist : ∀ i j, i < lfs.length → j < lfs.length → i ≠ j →
      (lfs.getD i default).filename ≠ (lfs.getD j default).filename)
    (hname : ∀ i, i < lfs.length → (lfs.getD i default).filename ≠ "") :
    ∀ (ws : List Filter) (cur : List NamedFilterSet), RegRel lfs cur →
      (∀ f ∈ ws, (f.origin = -1 ∧ f.loaded_offset = -1) ∨
        (0 ≤ f.origin ∧ f.origin.toNat < lfs.length ∧ 0 ≤ f.loaded_offset ∧
          ((lfs.getD f.origin.toNat default).missing = false →
            f.loaded_offset.toNat < (lfs.getD f.origin.toNat default).set.length))) →
      (FilterSet.retrieveList env (FilterSet.saveList lfs ws) (-1) cur).1
        = ws.map (fun f => { f with enabled := true }) := by
  intro ws
  induction ws with
  | nil => intro cur _ _; rfl
  | cons f rest ih =>
      intro cur hrel hwf
      have hf := retrieve_saved_filter env lfs cur f hrel hdist hname (hwf f (by simp))
      show (Filter.retrieveFromStorage env (Filter.saveRecord lfs f) (-1) cur).1 ::
        (FilterSet.retrieveList env (FilterSet.saveList lfs rest) (-1)
          (Filter.retrieveFromStorage env (Filter.saveRecord lfs f) (-1) cur).2).1 = _
      rw [hf.1, ih _ hf.2 (fun g hg => hwf g (by simp [hg]))]
      rfl

theorem save_noauto (isAuto : String → Bool) (lfs : List NamedFilterSet)
    (h : ∀ ns ∈ lfs, isAuto ns.filename = false) :
    LoadedFilterSets.save isAuto lfs
      = lfs.map (fun ns => (ns.filename, ns.set.map Filter.saveRecordNoOrigin)) := by
  unfold LoadedFilterSets.save
  rw [List.filter_eq_self.mpr (by intro a ha; simp [h a ha])]

theorem mapIdxFrom_congr (d : α) (f g : Nat → α → β) :
    ∀ (l : List α) (n : Nat),
      (∀ i, i < l.length → f (n + i) (l.getD i d) = g (n + i) (l.getD i d)) →
      mapIdxFrom n f l = mapIdxFrom n g l := by
  intro l
  induction l with
  | nil => intro n _; rfl
  | cons a as ih =>
      intro n hcong
      unfold mapIdxFrom
      rw [show f n a = g n a from by simpa using hcong 0 (by simp)]
      rw [ih (n + 1) (fun i hi => by
        have := hcong (i + 1) (by simpa using hi)
        simpa [Nat.add_assoc, Nat.add_comm 1 i] using this)]

/-- C7.  Saving the working set and the source registry to storage and
retrieving both back (registry first, then the working set against the
freshly loaded registry), with no external file changes in between (each
present source's file holds exactly the persisted content, each missing
source's file is still absent, the auto directory is empty and no
registered source lies in it) reproduces the working set's rule sequence
exactly: same order, same pattern, case-sensitivity and colours, and the
same `(origin, loaded_offset)` bindings.  Only the unserialized
transient state (the `enabled_` flag, and the dialog's drift flags,
which live outside the persisted objects) is not carried over. -/
theorem c7_roundtrip_preserves_working_set (env : Env) (ask : String → Bool)
    (isAuto : String → Bool) (ws : List Filter) (lfs : List NamedFilterSet)
    (hauto : env.autoFiles = [])
    (hnoauto : ∀ ns ∈ lfs, isAuto ns.filename = false)
    (hname : ∀ i, i < lfs.length → (lfs.getD i default).filename ≠ "")
    (hdist : ∀ i j, i < lfs.length → j < lfs.length → i ≠ j →
      (lfs.getD i default).filename ≠ (lfs.getD j default).filename)
    (hfiles : ∀ i, i < lfs.length →
      ((lfs.getD i default).missing = true →
        env.fileExists (lfs.getD i default).filename = false) ∧
      ((lfs.getD i default).missing = false →
        env.fileExists (lfs.getD i default).filename = true ∧
        env.fileFilters (lfs.getD i default).filename
          = (lfs.getD i default).set.map Filter.saveRecordNoOrigin))
    (hwf : ∀ f ∈ ws, (f.origin = -1 ∧ f.loaded_offset = -1) ∨
      (0 ≤ f.origin ∧ f.origin.toNat < lfs.length ∧ 0 ≤ f.loaded_offset ∧
        ((lfs.getD f.origin.toNat default).missing = false →
          f.loaded_offset.toNat < (lfs.getD f.origin.toNat default).set.length))) :
    (roundtrip env ask isAuto ws lfs).1 = ws.map (fun f => { f with enabled := true }) := by
  have hpack : ∀ e ∈ lfs.map (fun ns => (ns.filename, ns.set.map Filter.saveRecordNoOrigin)),
      (∀ r ∈ e.2, r.origin = "" ∧ r.loaded_offset = -1) ∧
      (env.fileExists e.1 = true →
        ∀ r ∈ env.fileFilters e.1, r.origin = "" ∧ r.loaded_offset = -1) := by
    intro e he
    rcases List.mem_map.mp he with ⟨ns, hns, rfl⟩
    rcases List.getElem_of_mem hns with ⟨i, hilt, hig⟩
    have hgetD : lfs.getD i default = ns := by rw [List.getD_eq_getElem _ _ hilt, hig]
    constructor
    · intro r hr
      rcases List.mem_map.mp hr with ⟨g, _, rfl⟩
      exact ⟨rfl, rfl⟩
    · intro hex r hr
      by_cases hm : ns.missing
      · have hc := (hfiles i hilt).1 (by rw [hgetD]; exact hm)
        rw [hgetD] at hc
        rw [hc] at hex
        cases hex
      · have hff := ((hfiles i hilt).2 (by rw [hgetD]; simpa using hm)).2
        rw [hgetD] at hff
        rw [hff] at hr
        rcases List.mem_map.mp hr with ⟨g, _, rfl⟩
        exact ⟨rfl, rfl⟩
  have hlfs' : LoadedFilterSets.retrieve env ask (LoadedFilterSets.save isAuto lfs)
      = mapIdxFrom 0 (fun i ns => (⟨ns.filename,
          (ns.set.map Filter.saveRecordNoOrigin).map (reloadedFilter (Int.ofNat i)),
          ns.missing⟩ : NamedFilterSet)) lfs := by
    rw [save_noauto isAuto lfs hnoauto]
    unfold LoadedFilterSets.retrieve
    rw [hauto]
    rw [retrieveAux_spec env ask _ [] hpack]
    simp only [autoAppend, List.nil_append, List.length_nil]
    rw [mapIdxFrom_map]
    apply mapIdxFrom_congr default
    intro i hi
    simp only [Nat.zero_add, List.length_map] at hi ⊢
    show entryReload env ask i ((lfs.getD i default).filename,
      (lfs.getD i default).set.map Filter.saveRecordNoOrigin) = _
    unfold entryReload
    by_cases hm : (lfs.getD i default).missing
    · rw [if_neg (by
        show ¬env.fileExists (lfs.getD i default).filename = true
        rw [(hfiles i hi).1 hm]
        exact Bool.false_ne_true)]
      rw [hm]
    · have hmf : (lfs.getD i default).missing = false := by simpa using hm
      have hex := ((hfiles i hi).2 hmf).1
      have hff := ((hfiles i hi).2 hmf).2
      rw [if_pos (show env.fileExists (lfs.getD i default).filename = true from hex)]
      rw [show env.fileFilters ((lfs.getD i default).filename,
        (lfs.getD i default).set.map Filter.saveRecordNoOrigin).1
          = (lfs.getD i default).set.map Filter.saveRecordNoOrigin from hff]
      rw [if_pos (listEqF_refl _)]
      rw [hmf]
  have hrel : RegRel lfs (LoadedFilterSets.retrieve env ask (LoadedFilterSets.save isAuto lfs)) := by
    rw [hlfs']
    constructor
    · rw [mapIdxFrom_length]
    · intro i hi
      rw [mapIdxFrom_getD _ default default lfs 0 i hi]
      refine ⟨rfl, rfl, fun _ => ?_⟩
      simp [List.length_map]
  exact retrieveList_saved env lfs hdist hname ws _ hrel hwf

/-- Witness for C7 at a concrete state: a registry with one present
source (whose file holds the persisted content) and one missing source,
and a working set with an unbound entry, an entry bound to the present
source and an entry bound to the missing source, round-trips to exactly
the same rule sequence. -/
theorem c7_roundtrip_preserves_working_set_witness :
    (roundtrip
      ⟨fun n => n == "p1",
       fun n => if n == "p1" then [⟨"a", false, "black", "white", "", -1⟩] else [], []⟩
      (fun _ => false) (fun _ => false)
      [⟨"a", false, "black", "white", true, 0, 0⟩,
       ⟨"b", true, "red", "white", true, -1, -1⟩,
       ⟨"c", false, "lime", "navy", true, 1, 0⟩]
      [⟨"p1", [⟨"a", false, "black", "white", true, 0, -1⟩], false⟩, ⟨"m1", [], true⟩]).1
    = [⟨"a", false, "black", "white", true, 0, 0⟩,
       ⟨"b", true, "red", "white", true, -1, -1⟩,
       ⟨"c", false, "lime", "navy", true, 1, 0⟩] := by
  rw [c7_roundtrip_preserves_working_set _ _ _ _ _ rfl (by decide) (by decide)
    (by
      intro i j hi hj hne
      have hi2 : i < 2 := hi
      have hj2 : j < 2 := hj
      interval_cases i <;> interval_cases j <;> first | exact absurd rfl hne | decide)
    (by decide) (by decide)]
  decide

end Glogg
